import Mathlib

/-!
Verification of the symbol-path resolver and variable/context extractor of the
a2ltool debug-info subsystem, shallowly embedded from src/symbol.rs and
src/debuginfo/dwarf/mod.rs.  Rust strings are modelled as lists of characters,
u64/usize arithmetic is modelled modulo 2^64, fallible code returns Except and
operations that can panic in Rust return Option (none = panic).
-/

set_option autoImplicit false

namespace A2l

/-- Rust string slices are modelled as lists of characters. -/
abbrev Str : Type := List Char

/-- Convert a Lean string literal to the character-list model. -/
def chars (s : String) : Str := s.data

/-- 2^64, the modulus of u64 / usize arithmetic. -/
def W : Nat := 18446744073709551616

/-- Open brace character (written numerically). -/
def obr : Char := Char.ofNat 123

/-- Close brace character (written numerically). -/
def cbr : Char := Char.ofNat 125

/-- First-match association lookup, the model of HashMap / IndexMap `get`. -/
def alookup {α β : Type} [DecidableEq α] (l : List (α × β)) (k : α) : Option β :=
  match l with
  | [] => none
  | p :: rest => if p.1 = k then some p.2 else alookup rest k

/-- Model of Rust `str::strip_prefix` for a string pattern: remove `p` from the
front of `s` if it is a prefix, else `none`. -/
def stripPre (p s : Str) : Option Str :=
  match p, s with
  | [], s => some s
  | _ :: _, [] => none
  | a :: ps, b :: ss => if a = b then stripPre ps ss else none

/-- Model of Rust `str::strip_suffix` for a single character: drop the final
character when it equals `c`. -/
def stripSufChar (c : Char) (s : Str) : Option Str :=
  if s.getLast? = some c then some s.dropLast else none

/-- Index of the first occurrence of the character `c` (Rust `str::find(c)`). -/
def findCharIdx (c : Char) : Str → Option Nat
  | [] => none
  | x :: rest =>
    if x = c then some 0 else (findCharIdx c rest).map (fun n => n + 1)

/-- Model of Rust `str::split` with the two-character separator
close-brace/open-brace: leftmost, non-overlapping occurrences. -/
def splitOnSep : Str → List Str
  | [] => [[]]
  | [x] => [[x]]
  | x :: y :: rest =>
    if x = cbr ∧ y = obr then [] :: splitOnSep rest
    else
      match splitOnSep (y :: rest) with
      | [] => [[x]]
      | h :: t => (x :: h) :: t

/-- Model of Rust `str::split` on a single character: `split('.')` etc.
Splitting the empty string yields one empty piece. -/
def splitOnChar (c : Char) : Str → List Str
  | [] => [[]]
  | x :: rest =>
    if x = c then [] :: splitOnChar c rest
    else
      match splitOnChar c rest with
      | [] => [[x]]
      | h :: t => (x :: h) :: t

/-- Model of Rust `str::split_inclusive` on a single character: pieces keep
the terminating character; the empty string yields no pieces. -/
def splitIncl (c : Char) : Str → List Str
  | [] => []
  | x :: rest =>
    if x = c then [x] :: splitIncl c rest
    else
      match splitIncl c rest with
      | [] => [[x]]
      | h :: t => (x :: h) :: t

/-- Model of Rust `str::parse::<usize>()`: an optional leading plus sign,
then one or more ASCII digits; values of 2^64 or more overflow and fail. -/
def parse_usize (s : Str) : Option Nat :=
  let digits := match s with
    | c :: rest => if c = '+' then rest else s
    | [] => s
  if digits ≠ [] ∧ digits.all Char.isDigit then
    let v := digits.foldl (fun a c => a * 10 + (c.toNat - 48)) 0
    if v < W then some v else none
  else none

/-- The low 32 bits of a u64 value reinterpreted as a signed 32-bit integer
(the Rust cast `as i32`). -/
def u64_as_i32 (n : Nat) : Int :=
  let m := n % 4294967296
  if m < 2147483648 then (m : Int) else (m : Int) - 4294967296

/-- Join path components with dots and pack into a Lean string, the model of
`components.join(".")` used in error messages. -/
def joinDot (comps : List Str) : String :=
  String.mk (List.intercalate ['.'] comps)

/-- The DWARF entry tags that the extractor distinguishes
(gimli DW_TAG constants). -/
inductive DwTag where
  | nsTag
  | subprogram
  | variableTag
  | classTypeTag
  | otherTag (code : Nat)
  deriving DecidableEq

/-- One global variable occurrence, from src/debuginfo: address, type-map key,
compile-unit index, optional enclosing function, enclosing namespaces. -/
structure VarInfo where
  address : Nat
  typeref : Nat
  unit_idx : Nat
  function : Option Str
  namespaces : List Str
  deriving DecidableEq

/-- The parsed disambiguation suffix of a symbol expression
(struct AdditionalSpec of src/symbol.rs). -/
structure AdditionalSpec where
  function_name : Option Str
  simple_unit_name : Option Str
  namespaces : List Str
  deriving DecidableEq

mutual

/-- Modelled from the spec: the tagged type variants of the type graph
(DbgDataType of the debuginfo module, which is not part of the analysed
sources; variants follow spec section 3 and their uses in src/symbol.rs).
Aggregates own their member type nodes; a typeref node references another
node of the type map by its stable offset key. -/
inductive DbgDataType where
  | uint8
  | uint16
  | uint32
  | uint64
  | sint8
  | sint16
  | sint32
  | sint64
  | float
  | double
  | boolean
  | pointer (size : Nat)
  | enum (size : Nat) (enumerators : List (Str × Int))
  | bitfield (bit_offset : Nat) (bit_size : Nat) (basetype : TypeInfo)
  | array (size : Nat) (dim : List Nat) (stride : Nat) (arraytype : TypeInfo)
  | struct (size : Nat) (members : List (Str × TypeInfo × Nat))
  | union (size : Nat) (members : List (Str × TypeInfo × Nat))
  | classType (size : Nat) (members : List (Str × TypeInfo × Nat))
      (inheritance : List (Str × TypeInfo × Nat))
  | typeref (dbginfo_offset : Nat) (size : Nat)
  | other (size : Nat)

/-- Modelled from the spec: a type node (TypeInfo of the debuginfo module):
optional display name, owning unit index, variant data, stable offset key. -/
inductive TypeInfo where
  | mk (name : Option Str) (unit_idx : Nat) (datatype : DbgDataType)
      (dbginfo_offset : Nat)

end

instance : Inhabited TypeInfo := ⟨TypeInfo.mk none 0 DbgDataType.uint8 0⟩

instance : Inhabited DbgDataType := ⟨DbgDataType.uint8⟩

/-- The datatype field of a type node. -/
def TypeInfo.datatype : TypeInfo → DbgDataType
  | .mk _ _ d _ => d

/-- The display-name field of a type node. -/
def TypeInfo.name : TypeInfo → Option Str
  | .mk n _ _ _ => n

/-- The owning-unit field of a type node. -/
def TypeInfo.unit_idx : TypeInfo → Nat
  | .mk _ u _ _ => u

/-- The stable offset key of a type node. -/
def TypeInfo.dbginfo_offset : TypeInfo → Nat
  | .mk _ _ _ o => o

/-- The immutable debug-data snapshot (struct DebugData): variable table in
insertion order, type map, type-name index, demangled-name index, per-unit
display names, section ranges. -/
structure DebugData where
  «variables» : List (Str × List VarInfo)
  types : List (Nat × TypeInfo)
  typenames : List (Str × Nat)
  demangled_names : List (Str × Str)
  unit_names : List (Option Str)
  sections : List (Str × Nat × Nat)

/-- The resolver result (struct SymbolInfo of src/symbol.rs). -/
structure SymbolInfo where
  name : Str
  address : Nat
  typeinfo : TypeInfo
  unit_idx : Nat
  function_name : Option Str
  namespaces : List Str
  is_unique : Bool

/-- Modelled from the spec: make_simple_unit_name of the debuginfo module
(not part of the analysed sources).  Returns the display name of the given
compile unit normalized so that every non-alphanumeric character becomes an
underscore; none when the unit has no recorded display name. -/
def make_simple_unit_name (debug_data : DebugData) (unit_idx : Nat) :
    Option Str :=
  match debug_data.unit_names.getD unit_idx none with
  | none => none
  | some nm => some (nm.map (fun c => if c.isAlphanum then c else '_'))

/-- Modelled from the spec: TypeInfo::get_reference of the debuginfo module
(not part of the analysed sources).  A typeref node is dereferenced through
the type map (falling back to itself when the key is absent); every other
node is returned unchanged.  This is the use-time resolution of by-key
cross references described in spec section 3. -/
def TypeInfo.get_reference (t : TypeInfo) (types : List (Nat × TypeInfo)) :
    TypeInfo :=
  match t.datatype with
  | .typeref off _ => (alookup types off).getD t
  | _ => t

/-- Modelled from the spec: TypeInfo::get_size of the debuginfo module (not
part of the analysed sources).  Scalar widths follow spec section 3;
aggregate, array, enum, pointer and typeref nodes carry their byte size. -/
def TypeInfo.get_size : TypeInfo → Nat
  | .mk _ _ .uint8 _ => 1
  | .mk _ _ .uint16 _ => 2
  | .mk _ _ .uint32 _ => 4
  | .mk _ _ .uint64 _ => 8
  | .mk _ _ .sint8 _ => 1
  | .mk _ _ .sint16 _ => 2
  | .mk _ _ .sint32 _ => 4
  | .mk _ _ .sint64 _ => 8
  | .mk _ _ .float _ => 4
  | .mk _ _ .double _ => 8
  | .mk _ _ .boolean _ => 1
  | .mk _ _ (.pointer size) _ => size
  | .mk _ _ (.enum size _) _ => size
  | .mk _ _ (.bitfield _ _ basetype) _ => basetype.get_size
  | .mk _ _ (.array size _ _ _) _ => size
  | .mk _ _ (.struct size _) _ => size
  | .mk _ _ (.union size _) _ => size
  | .mk _ _ (.classType size _ _) _ => size
  | .mk _ _ (.typeref _ size) _ => size
  | .mk _ _ (.other size) _ => size

/-- Translation of get_index (src/symbol.rs).  Rust slices the string as
`idxstr[1..len-1]`; for the one-character string consisting of a single
underscore both the prefix and the suffix test hit the same character and the
slice bounds are inverted, which panics in Rust — modelled as the outer
`none`.  Otherwise the inner option is the result of `parse::<usize>()`. -/
def get_index (idxstr : Str) : Option (Option Nat) :=
  if (idxstr.head? = some '_' ∧ idxstr.getLast? = some '_')
      ∨ (idxstr.head? = some '[' ∧ idxstr.getLast? = some ']') then
    if idxstr.length = 1 then none
    else some (parse_usize ((idxstr.drop 1).take (idxstr.length - 2)))
  else some none

/-- Translation of the group-scanning loop of get_additional_spec
(src/symbol.rs): Function: overwrites the function filter, Namespace:
appends to the namespace list, CompileUnit: sets the unit filter and breaks
out of the loop. -/
def scan_spec : AdditionalSpec → List Str → AdditionalSpec
  | spec, [] => spec
  | spec, component :: rest =>
    match stripPre (chars "Function:") component with
    | some func_name =>
      scan_spec { spec with function_name := some func_name } rest
    | none =>
      match stripPre (chars "Namespace:") component with
      | some nsname =>
        scan_spec { spec with namespaces := spec.namespaces ++ [nsname] } rest
      | none =>
        match stripPre (chars "CompileUnit:") component with
        | some name => { spec with simple_unit_name := some name }
        | none => scan_spec spec rest

/-- Translation of get_additional_spec (src/symbol.rs): split the expression
at the first open brace, strip one leading open brace and one trailing close
brace from the suffix, split the remainder on close-brace/open-brace pairs
and scan the groups. -/
def get_additional_spec (varname_ext : Str) : Str × Option AdditionalSpec :=
  match findCharIdx obr varname_ext with
  | none => (varname_ext, none)
  | some pos =>
    let base := varname_ext.take pos
    let spec_str := varname_ext.drop pos
    match (stripPre [obr] spec_str).bind (stripSufChar cbr) with
    | none => (base, none)
    | some inner => (base, some (scan_spec ⟨none, none, []⟩ (splitOnSep inner)))

/-- Translation of split_symbol_components (src/symbol.rs): split on dots,
then split any component with a bracket group into the part before the first
bracket followed by the bracket groups (split_inclusive on the closing
bracket). -/
def split_symbol_components (varname : Str) : List Str :=
  (splitOnChar '.' varname).flatMap (fun component =>
    match findCharIdx '[' component with
    | some idx => component.take idx :: splitIncl ']' (component.drop idx)
    | none => [component])

/-- The candidate filter of select_varinfo (src/symbol.rs): unit filter unset
or equal to the normalized unit name, function filter unset or equal to the
candidate function, and the namespace lists exactly equal. -/
def sv_matches (debug_data : DebugData) (spec : AdditionalSpec)
    (vi : VarInfo) : Bool :=
  (spec.simple_unit_name.isNone
      || spec.simple_unit_name == make_simple_unit_name debug_data vi.unit_idx)
    && (spec.function_name.isNone || spec.function_name == vi.function)
    && spec.namespaces == vi.namespaces

/-- The search loop of select_varinfo (src/symbol.rs): the first candidate
satisfying the filter. -/
def sv_find (debug_data : DebugData) (spec : AdditionalSpec) :
    List VarInfo → Option VarInfo
  | [] => none
  | vi :: rest =>
    if sv_matches debug_data spec vi then some vi
    else sv_find debug_data spec rest

/-- Translation of select_varinfo (src/symbol.rs).  Rust returns
`&varinfo_list[0]` when no candidate matches (or no spec is given), which
panics on an empty list — modelled by `head?` (none = panic). -/
def select_varinfo (varinfo_list : List VarInfo)
    (additional_spec : Option AdditionalSpec) (debug_data : DebugData) :
    Option VarInfo :=
  match additional_spec with
  | some spec =>
    match sv_find debug_data spec varinfo_list with
    | some vi => some vi
    | none => varinfo_list.head?
  | none => varinfo_list.head?

/-- The default component substituted for a missing trailing array index. -/
def default_index : Str := chars "_0_"

/-- The out-of-bounds error text of the array loop in find_membertype. -/
def bounds_msg (indexval : Nat) (comps : List Str) (current_dim : Nat) :
    String :=
  "requested array index " ++ toString indexval ++ " in expression \""
    ++ joinDot comps ++ "\", but the array only has " ++ toString current_dim
    ++ " elements"

/-- The unparsable-index error text of the array loop in find_membertype. -/
def interp_msg (arraycomponent : Str) : String :=
  "could not interpret \"" ++ String.mk arraycomponent
    ++ "\" as an array index"

/-- The trailing-components error text (find_membertype and
find_symbol_from_components). -/
def remaining_msg (comps : List Str) (ci : Nat) : String :=
  "Remaining portion \"" ++ joinDot (comps.drop ci) ++ "\" of \""
    ++ joinDot comps ++ "\" could not be matched"

/-- The unknown-member error text of find_membertype. -/
def no_member_msg (comp : Str) (comps : List Str) (ci : Nat) : String :=
  "There is no member \"" ++ String.mk comp ++ "\" in \""
    ++ joinDot (comps.take ci) ++ "\""

/-- Translation of the per-dimension index loop in the array branch of
find_membertype (src/symbol.rs): parse one component per declared dimension
(defaulting to the first element when components run out), reject an index
at or beyond the extent, and accumulate the row-major flat index with usize
(wrapping) arithmetic.  The outer `none` propagates the get_index panic. -/
def array_index_loop (comps : List Str) (ci : Nat) (dims : List Nat)
    (k : Nat) (multi_index : Nat) : Option (Except String Nat) :=
  match dims with
  | [] => some (.ok multi_index)
  | current_dim :: rest =>
    let arraycomponent := (comps.get? (ci + k)).getD default_index
    match get_index arraycomponent with
    | none => none
    | some none => some (.error (interp_msg arraycomponent))
    | some (some indexval) =>
      if indexval ≥ current_dim then
        some (.error (bounds_msg indexval comps current_dim))
      else
        array_index_loop comps ci rest (k + 1)
          ((multi_index * current_dim + indexval) % W)

/-- Translation of find_membertype (src/symbol.rs): recursive descent from a
type node through struct/union members, class members and base classes
(with the underscore stop marker), and array dimensions, accumulating the
address with u64 (wrapping) arithmetic. -/
def find_membertype (typeinfo : TypeInfo) (debug_data : DebugData)
    (comps : List Str) (ci : Nat) (address : Nat) :
    Option (Except String (Nat × TypeInfo)) :=
  if h : ci < comps.length then
    match typeinfo with
    | .mk _ _ dt _ =>
      match dt with
      | .classType _ members inheritance =>
        let comp := comps.get ⟨ci, h⟩
        match alookup members comp with
        | some (membertype, offset) =>
          find_membertype (membertype.get_reference debug_data.types)
            debug_data comps (ci + 1) ((address + offset) % W)
        | none =>
          match alookup inheritance comp with
          | some (baseclass_type, offset) =>
            let skip : Nat :=
              if comps.length > ci + 1 ∧ comps.get? (ci + 1) = some ['_']
              then 1 else 0
            find_membertype baseclass_type debug_data comps (ci + 1 + skip)
              ((address + offset) % W)
          | none => some (.error (no_member_msg comp comps ci))
      | .struct _ members =>
        let comp := comps.get ⟨ci, h⟩
        match alookup members comp with
        | some (membertype, offset) =>
          find_membertype (membertype.get_reference debug_data.types)
            debug_data comps (ci + 1) ((address + offset) % W)
        | none => some (.error (no_member_msg comp comps ci))
      | .union _ members =>
        let comp := comps.get ⟨ci, h⟩
        match alookup members comp with
        | some (membertype, offset) =>
          find_membertype (membertype.get_reference debug_data.types)
            debug_data comps (ci + 1) ((address + offset) % W)
        | none => some (.error (no_member_msg comp comps ci))
      | .array _ dim stride arraytype =>
        match array_index_loop comps ci dim 0 0 with
        | none => none
        | some (.error e) => some (.error e)
        | some (.ok multi_index) =>
          let elementaddr := (address + (multi_index * stride) % W) % W
          find_membertype arraytype debug_data comps (ci + dim.length)
            elementaddr
      | _ =>
        if ci ≥ comps.length then some (.ok (address, typeinfo))
        else some (.error (remaining_msg comps ci))
  else some (.ok (address, typeinfo))
termination_by (comps.length - ci, sizeOf typeinfo)
decreasing_by
  · apply Prod.Lex.left
    omega
  · apply Prod.Lex.left
    omega
  · apply Prod.Lex.left
    omega
  · apply Prod.Lex.left
    omega
  · rcases dim with _ | ⟨d0, drest⟩
    · apply Prod.Lex.right
      simp
      omega
    · apply Prod.Lex.left
      simp only [List.length_cons]
      omega

/-- Whether a type variant is handled by the catch-all leaf arm of
find_membertype (everything except struct, union, class and array). -/
def dt_is_leaf : DbgDataType → Bool
  | .struct _ _ => false
  | .union _ _ => false
  | .classType _ _ _ => false
  | .array _ _ _ _ => false
  | _ => true

/-- The uint32 leaf type node used by the concrete examples. -/
def u32node : TypeInfo := .mk none (W - 1) .uint32 0

/-- The uint8 leaf type node used by the concrete examples. -/
def u8node : TypeInfo := .mk none 0 .uint8 0

/-- An array type of 2^31 single-byte elements: its size does not fit a
signed 32-bit integer. -/
def bigArr : TypeInfo :=
  .mk none 0 (.array 2147483648 [2147483648] 1 u8node) 0

/-- A resolved base symbol of the 2^31-byte array type. -/
def baseBig : SymbolInfo := ⟨chars "big", 4096, bigArr, 0, none, [], true⟩

/-- A two-member struct type: byte a at offset 0 and byte b at offset 2,
total size 3. -/
def stty : TypeInfo :=
  .mk none 0 (.struct 3 [(chars "a", u8node, 0), (chars "b", u8node, 2)]) 0

/-- A resolved base symbol of the two-member struct type at address 1000. -/
def stbase : SymbolInfo := ⟨chars "st", 1000, stty, 0, none, [], true⟩

/-- Debug data with a struct variable s at address 500 whose single member
is literally named with the legacy index spelling underscore-zero-underscore
(a legal C identifier), at byte offset 4. -/
def dbgUS : DebugData :=
  ⟨[(chars "s", [⟨500, 3, 0, none, []⟩])],
    [(3, TypeInfo.mk none 0 (.struct 8 [(chars "_0_", u32node, 4)]) 0)],
    [], [], [], []⟩

/-- The row-major flattened index of spec section 4.3: over the declared
dimensions in order, starting at dimension position j with accumulator acc,
fold acc times extent plus the index selected for that position (exact
natural-number arithmetic, no wrap). -/
def row_major_fold (dims : List Nat) (idxs : Nat → Nat) (j : Nat)
    (acc : Nat) : Nat :=
  match dims with
  | [] => acc
  | d :: ds => row_major_fold ds idxs (j + 1) (acc * d + idxs j)

/-- Debug data with one C++ variable known by its mangled name _Zx at
address 42 with a uint32 type, and a demangled-name index entry mapping the
readable name to the mangled one. -/
def dbgMangled : DebugData :=
  ⟨[(chars "_Zx", [⟨42, 9, 0, none, []⟩])],
    [(9, TypeInfo.mk none 0 .uint32 0)], [],
    [(chars "Foo::x", chars "_Zx")], [], []⟩

theorem fm_exhausted (t : TypeInfo) (dbg : DebugData) (comps : List Str)
    (ci : Nat) (addr : Nat) (h : ¬ ci < comps.length) :
    find_membertype t dbg comps ci addr = some (.ok (addr, t)) := by
  unfold find_membertype
  rw [dif_neg h]

theorem fm_struct_found (nm : Option Str) (ui sz : Nat)
    (members : List (Str × TypeInfo × Nat)) (off : Nat) (dbg : DebugData)
    (comps : List Str) (ci addr : Nat) (mt : TypeInfo) (mo : Nat)
    (h : ci < comps.length)
    (hm : alookup members (comps.getD ci []) = some (mt, mo)) :
    find_membertype (.mk nm ui (.struct sz members) off) dbg comps ci addr =
      find_membertype (mt.get_reference dbg.types) dbg comps (ci + 1)
        ((addr + mo) % W) := by
  conv_lhs => unfold find_membertype
  rw [dif_pos h]
  have hge : comps.get ⟨ci, h⟩ = comps.getD ci [] := by
    simp [List.getD_eq_getElem comps [] h, List.getElem?_eq_getElem h]
  simp only [hge, hm]

theorem fm_struct_notfound (nm : Option Str) (ui sz : Nat)
    (members : List (Str × TypeInfo × Nat)) (off : Nat) (dbg : DebugData)
    (comps : List Str) (ci addr : Nat) (h : ci < comps.length)
    (hm : alookup members (comps.getD ci []) = none) :
    find_membertype (.mk nm ui (.struct sz members) off) dbg comps ci addr =
      some (.error (no_member_msg (comps.getD ci []) comps ci)) := by
  conv_lhs => unfold find_membertype
  rw [dif_pos h]
  have hge : comps.get ⟨ci, h⟩ = comps.getD ci [] := by
    simp [List.getD_eq_getElem comps [] h, List.getElem?_eq_getElem h]
  simp only [hge, hm]

theorem fm_union_found (nm : Option Str) (ui sz : Nat)
    (members : List (Str × TypeInfo × Nat)) (off : Nat) (dbg : DebugData)
    (comps : List Str) (ci addr : Nat) (mt : TypeInfo) (mo : Nat)
    (h : ci < comps.length)
    (hm : alookup members (comps.getD ci []) = some (mt, mo)) :
    find_membertype (.mk nm ui (.union sz members) off) dbg comps ci addr =
      find_membertype (mt.get_reference dbg.types) dbg comps (ci + 1)
        ((addr + mo) % W) := by
  conv_lhs => unfold find_membertype
  rw [dif_pos h]
  have hge : comps.get ⟨ci, h⟩ = comps.getD ci [] := by
    simp [List.getD_eq_getElem comps [] h, List.getElem?_eq_getElem h]
  simp only [hge, hm]

theorem fm_union_notfound (nm : Option Str) (ui sz : Nat)
    (members : List (Str × TypeInfo × Nat)) (off : Nat) (dbg : DebugData)
    (comps : List Str) (ci addr : Nat) (h : ci < comps.length)
    (hm : alookup members (comps.getD ci []) = none) :
    find_membertype (.mk nm ui (.union sz members) off) dbg comps ci addr =
      some (.error (no_member_msg (comps.getD ci []) comps ci)) := by
  conv_lhs => unfold find_membertype
  rw [dif_pos h]
  have hge : comps.get ⟨ci, h⟩ = comps.getD ci [] := by
    simp [List.getD_eq_getElem comps [] h, List.getElem?_eq_getElem h]
  simp only [hge, hm]

theorem fm_class_member (nm : Option Str) (ui sz : Nat)
    (members inheritance : List (Str × TypeInfo × Nat)) (off : Nat)
    (dbg : DebugData) (comps : List Str) (ci addr : Nat) (mt : TypeInfo)
    (mo : Nat) (h : ci < comps.length)
    (hm : alookup members (comps.getD ci []) = some (mt, mo)) :
    find_membertype (.mk nm ui (.classType sz members inheritance) off) dbg
        comps ci addr =
      find_membertype (mt.get_reference dbg.types) dbg comps (ci + 1)
        ((addr + mo) % W) := by
  conv_lhs => unfold find_membertype
  rw [dif_pos h]
  have hge : comps.get ⟨ci, h⟩ = comps.getD ci [] := by
    simp [List.getD_eq_getElem comps [] h, List.getElem?_eq_getElem h]
  simp only [hge, hm]

theorem fm_class_base (nm : Option Str) (ui sz : Nat)
    (members inheritance : List (Str × TypeInfo × Nat)) (off : Nat)
    (dbg : DebugData) (comps : List Str) (ci addr : Nat) (bt : TypeInfo)
    (bo : Nat) (h : ci < comps.length)
    (hm : alookup members (comps.getD ci []) = none)
    (hb : alookup inheritance (comps.getD ci []) = some (bt, bo)) :
    find_membertype (.mk nm ui (.classType sz members inheritance) off) dbg
        comps ci addr =
      find_membertype bt dbg comps
        (ci + 1 + (if comps.length > ci + 1
            ∧ comps.get? (ci + 1) = some ['_'] then 1 else 0))
        ((addr + bo) % W) := by
  conv_lhs => unfold find_membertype
  rw [dif_pos h]
  have hge : comps.get ⟨ci, h⟩ = comps.getD ci [] := by
    simp [List.getD_eq_getElem comps [] h, List.getElem?_eq_getElem h]
  simp only [hge, hm, hb]

theorem fm_class_notfound (nm : Option Str) (ui sz : Nat)
    (members inheritance : List (Str × TypeInfo × Nat)) (off : Nat)
    (dbg : DebugData) (comps : List Str) (ci addr : Nat)
    (h : ci < comps.length)
    (hm : alookup members (comps.getD ci []) = none)
    (hb : alookup inheritance (comps.getD ci []) = none) :
    find_membertype (.mk nm ui (.classType sz members inheritance) off) dbg
        comps ci addr =
      some (.error (no_member_msg (comps.getD ci []) comps ci)) := by
  conv_lhs => unfold find_membertype
  rw [dif_pos h]
  have hge : comps.get ⟨ci, h⟩ = comps.getD ci [] := by
    simp [List.getD_eq_getElem comps [] h, List.getElem?_eq_getElem h]
  simp only [hge, hm, hb]

theorem fm_array_ok (nm : Option Str) (ui sz : Nat) (dim : List Nat)
    (stride : Nat) (arraytype : TypeInfo) (off : Nat) (dbg : DebugData)
    (comps : List Str) (ci addr mi : Nat) (h : ci < comps.length)
    (hl : array_index_loop comps ci dim 0 0 = some (.ok mi)) :
    find_membertype (.mk nm ui (.array sz dim stride arraytype) off) dbg
        comps ci addr =
      find_membertype arraytype dbg comps (ci + dim.length)
        ((addr + (mi * stride) % W) % W) := by
  conv_lhs => unfold find_membertype
  rw [dif_pos h]
  simp only [hl]

theorem fm_array_err (nm : Option Str) (ui sz : Nat) (dim : List Nat)
    (stride : Nat) (arraytype : TypeInfo) (off : Nat) (dbg : DebugData)
    (comps : List Str) (ci addr : Nat) (e : String) (h : ci < comps.length)
    (hl : array_index_loop comps ci dim 0 0 = some (.error e)) :
    find_membertype (.mk nm ui (.array sz dim stride arraytype) off) dbg
        comps ci addr = some (.error e) := by
  unfold find_membertype
  rw [dif_pos h]
  simp only [hl]

theorem fm_array_panic (nm : Option Str) (ui sz : Nat) (dim : List Nat)
    (stride : Nat) (arraytype : TypeInfo) (off : Nat) (dbg : DebugData)
    (comps : List Str) (ci addr : Nat) (h : ci < comps.length)
    (hl : array_index_loop comps ci dim 0 0 = none) :
    find_membertype (.mk nm ui (.array sz dim stride arraytype) off) dbg
        comps ci addr = none := by
  unfold find_membertype
  rw [dif_pos h]
  simp only [hl]

theorem fm_leaf (nm : Option Str) (ui : Nat) (dt : DbgDataType) (off : Nat)
    (dbg : DebugData) (comps : List Str) (ci : Nat) (addr : Nat)
    (h : ci < comps.length) (hleaf : dt_is_leaf dt = true) :
    find_membertype (.mk nm ui dt off) dbg comps ci addr =
      some (.error (remaining_msg comps ci)) := by
  unfold find_membertype
  rw [dif_pos h]
  have hnot : ¬ ci ≥ comps.length := by omega
  cases dt <;> simp_all [dt_is_leaf]

/-- The default type substituted when a variable's typeref is not a key of
the type map: an unsigned 8-bit integer with no name, unit index usize::MAX
and offset key 0 (find_symbol_from_components, src/symbol.rs). -/
def default_uint8 : TypeInfo := .mk none (W - 1) .uint8 0

/-- Translation of find_symbol_from_components (src/symbol.rs): look up the
base component in the variable table, disambiguate, fetch the type and
descend; a missing type map entry succeeds with the default u8 type for a
single-component expression and reports the remaining portion otherwise.
The outer `none` models the Rust panics (empty component list, empty
candidate list, get_index of a single underscore). -/
def find_symbol_from_components (comps : List Str)
    (additional_spec : Option AdditionalSpec) (debug_data : DebugData) :
    Option (Except String SymbolInfo) :=
  match comps with
  | [] => none
  | c0 :: _ =>
    match alookup debug_data.variables c0 with
    | some varinfo_list =>
      match select_varinfo varinfo_list additional_spec debug_data with
      | none => none
      | some varinfo =>
        let is_unique := varinfo_list.length == 1
        match alookup debug_data.types varinfo.typeref with
        | some vartype =>
          match find_membertype vartype debug_data comps 1 varinfo.address with
          | none => none
          | some (.error e) => some (.error e)
          | some (.ok (addr, ti)) =>
            some (.ok ⟨[], addr, ti, varinfo.unit_idx, varinfo.function,
              varinfo.namespaces, is_unique⟩)
        | none =>
          if comps.length = 1 then
            some (.ok ⟨[], varinfo.address, default_uint8, varinfo.unit_idx,
              none, varinfo.namespaces, is_unique⟩)
          else some (.error (remaining_msg comps 1))
    | none =>
      some (.error ("Symbol \"" ++ String.mk c0 ++ "\" does not exist"))

/-- Translation of find_symbol (src/symbol.rs): strip the disambiguation
suffix, split the path, resolve; on failure retry with the mangled name from
the demangled-name index substituted for the base component, reporting a
retry success under the mangled name joined with the rest of the original
expression, and a retry failure with the original error. -/
def find_symbol (varname : Str) (debug_data : DebugData) :
    Option (Except String SymbolInfo) :=
  let ps := get_additional_spec varname
  let plain_symbol := ps.1
  let additional_spec := ps.2
  let comps := split_symbol_components plain_symbol
  match comps with
  | [] => none
  | c0 :: crest =>
    match find_symbol_from_components (c0 :: crest) additional_spec
        debug_data with
    | none => none
    | some (.ok sym_info) => some (.ok { sym_info with name := plain_symbol })
    | some (.error find_err) =>
      match alookup debug_data.demangled_names c0 with
      | some mangled =>
        match find_symbol_from_components (mangled :: crest) additional_spec
            debug_data with
        | some (.ok sym_info) =>
          match stripPre c0 varname with
          | some remainder =>
            some (.ok { sym_info with name := mangled ++ remainder })
          | none => none
        | some (.error _) => some (.error find_err)
        | none => none
      | none => some (.error find_err)

theorem fsc_eval_ok (c0 : Str) (rest : List Str)
    (additional_spec : Option AdditionalSpec) (dbg : DebugData)
    (vl : List VarInfo) (vi : VarInfo) (vt : TypeInfo) (addr : Nat)
    (ti : TypeInfo) (hv : alookup dbg.variables c0 = some vl)
    (hs : select_varinfo vl additional_spec dbg = some vi)
    (ht : alookup dbg.types vi.typeref = some vt)
    (hm : find_membertype vt dbg (c0 :: rest) 1 vi.address
      = some (.ok (addr, ti))) :
    find_symbol_from_components (c0 :: rest) additional_spec dbg
      = some (.ok ⟨[], addr, ti, vi.unit_idx, vi.function, vi.namespaces,
          vl.length == 1⟩) := by
  unfold find_symbol_from_components
  simp only [hv, hs, ht, hm]

theorem fsc_eval_err (c0 : Str) (rest : List Str)
    (additional_spec : Option AdditionalSpec) (dbg : DebugData)
    (vl : List VarInfo) (vi : VarInfo) (vt : TypeInfo) (e : String)
    (hv : alookup dbg.variables c0 = some vl)
    (hs : select_varinfo vl additional_spec dbg = some vi)
    (ht : alookup dbg.types vi.typeref = some vt)
    (hm : find_membertype vt dbg (c0 :: rest) 1 vi.address
      = some (.error e)) :
    find_symbol_from_components (c0 :: rest) additional_spec dbg
      = some (.error e) := by
  unfold find_symbol_from_components
  simp only [hv, hs, ht, hm]

theorem fsc_eval_panic (c0 : Str) (rest : List Str)
    (additional_spec : Option AdditionalSpec) (dbg : DebugData)
    (vl : List VarInfo) (vi : VarInfo) (vt : TypeInfo)
    (hv : alookup dbg.variables c0 = some vl)
    (hs : select_varinfo vl additional_spec dbg = some vi)
    (ht : alookup dbg.types vi.typeref = some vt)
    (hm : find_membertype vt dbg (c0 :: rest) 1 vi.address = none) :
    find_symbol_from_components (c0 :: rest) additional_spec dbg = none := by
  unfold find_symbol_from_components
  simp only [hv, hs, ht, hm]

theorem fsc_eval_notype_single (c0 : Str)
    (additional_spec : Option AdditionalSpec) (dbg : DebugData)
    (vl : List VarInfo) (vi : VarInfo)
    (hv : alookup dbg.variables c0 = some vl)
    (hs : select_varinfo vl additional_spec dbg = some vi)
    (ht : alookup dbg.types vi.typeref = none) :
    find_symbol_from_components [c0] additional_spec dbg
      = some (.ok ⟨[], vi.address, default_uint8, vi.unit_idx, none,
          vi.namespaces, vl.length == 1⟩) := by
  unfold find_symbol_from_components
  simp only [hv, hs, ht]
  rfl

theorem fsc_eval_notype_multi (c0 r0 : Str) (rrest : List Str)
    (additional_spec : Option AdditionalSpec) (dbg : DebugData)
    (vl : List VarInfo) (vi : VarInfo)
    (hv : alookup dbg.variables c0 = some vl)
    (hs : select_varinfo vl additional_spec dbg = some vi)
    (ht : alookup dbg.types vi.typeref = none) :
    find_symbol_from_components (c0 :: r0 :: rrest) additional_spec dbg
      = some (.error (remaining_msg (c0 :: r0 :: rrest) 1)) := by
  unfold find_symbol_from_components
  simp only [hv, hs, ht]
  simp [List.length_cons]

theorem fsc_eval_nosym (c0 : Str) (rest : List Str)
    (additional_spec : Option AdditionalSpec) (dbg : DebugData)
    (hv : alookup dbg.variables c0 = none) :
    find_symbol_from_components (c0 :: rest) additional_spec dbg
      = some (.error ("Symbol \"" ++ String.mk c0 ++ "\" does not exist")) := by
  unfold find_symbol_from_components
  simp only [hv]

theorem fs_eval_ok (varname : Str) (dbg : DebugData) (plain : Str)
    (additional_spec : Option AdditionalSpec) (c0 : Str) (crest : List Str)
    (si : SymbolInfo)
    (hp : get_additional_spec varname = (plain, additional_spec))
    (hs : split_symbol_components plain = c0 :: crest)
    (hf : find_symbol_from_components (c0 :: crest) additional_spec dbg
      = some (.ok si)) :
    find_symbol varname dbg = some (.ok { si with name := plain }) := by
  unfold find_symbol
  simp only [hp, hs, hf]

theorem fs_eval_err_nodemangle (varname : Str) (dbg : DebugData)
    (plain : Str) (additional_spec : Option AdditionalSpec) (c0 : Str)
    (crest : List Str) (e : String)
    (hp : get_additional_spec varname = (plain, additional_spec))
    (hs : split_symbol_components plain = c0 :: crest)
    (hf : find_symbol_from_components (c0 :: crest) additional_spec dbg
      = some (.error e))
    (hd : alookup dbg.demangled_names c0 = none) :
    find_symbol varname dbg = some (.error e) := by
  unfold find_symbol
  simp only [hp, hs, hf, hd]

theorem fs_eval_err_demangle_ok (varname : Str) (dbg : DebugData)
    (plain : Str) (additional_spec : Option AdditionalSpec) (c0 : Str)
    (crest : List Str) (e : String) (mangled : Str) (si : SymbolInfo)
    (remainder : Str)
    (hp : get_additional_spec varname = (plain, additional_spec))
    (hs : split_symbol_components plain = c0 :: crest)
    (hf : find_symbol_from_components (c0 :: crest) additional_spec dbg
      = some (.error e))
    (hd : alookup dbg.demangled_names c0 = some mangled)
    (hf2 : find_symbol_from_components (mangled :: crest) additional_spec dbg
      = some (.ok si))
    (hstrip : stripPre c0 varname = some remainder) :
    find_symbol varname dbg
      = some (.ok { si with name := mangled ++ remainder }) := by
  unfold find_symbol
  simp only [hp, hs, hf, hd, hf2, hstrip]

theorem fs_eval_panic (varname : Str) (dbg : DebugData) (plain : Str)
    (additional_spec : Option AdditionalSpec) (c0 : Str) (crest : List Str)
    (hp : get_additional_spec varname = (plain, additional_spec))
    (hs : split_symbol_components plain = c0 :: crest)
    (hf : find_symbol_from_components (c0 :: crest) additional_spec dbg
      = none) :
    find_symbol varname dbg = none := by
  unfold find_symbol
  simp only [hp, hs, hf]

mutual

/-- Modelled from the spec: the member-list walk of TypeInfoIter (the
TypeInfoIter code of the debuginfo module is not part of the analysed
sources): each member as a dot-prefixed component followed by that member
type's own components at shifted offsets. -/
def tii_members (types : List (Nat × TypeInfo)) :
    List (Str × TypeInfo × Nat) → List (Str × TypeInfo × Nat)
  | [] => []
  | (mname, mt, moff) :: rest =>
    (('.' :: mname, mt, moff)
        :: (type_info_iter types mt).map (fun e =>
          ('.' :: mname ++ e.1, e.2.1, (moff + e.2.2) % W)))
      ++ tii_members types rest
termination_by l => sizeOf l

/-- Modelled from the spec: TypeInfoIter of the debuginfo module (not part
of the analysed sources).  Depth-first, finite enumeration of the
addressable components of a type as (name suffix, type, cumulative byte
offset).  Struct/union/class members (and class base-class subobjects) get
a dot-prefixed suffix; array elements use the legacy underscore index
notation; pointers, scalars, bitfields and by-key references are leaves and
are never expanded. -/
def type_info_iter (types : List (Nat × TypeInfo)) :
    TypeInfo → List (Str × TypeInfo × Nat)
  | .mk _ _ (.struct _ members) _ => tii_members types members
  | .mk _ _ (.union _ members) _ => tii_members types members
  | .mk _ _ (.classType _ members inheritance) _ =>
    tii_members types members ++ tii_members types inheritance
  | .mk _ _ (.array _ dim stride arraytype) _ =>
    (List.range (dim.foldl (fun a d => a * d) 1)).flatMap (fun i =>
      (chars ("._" ++ toString i ++ "_"), arraytype, (i * stride) % W)
        :: (type_info_iter types arraytype).map (fun e =>
          (chars ("._" ++ toString i ++ "_") ++ e.1, e.2.1,
            ((i * stride) % W + e.2.2) % W)))
  | _ => []
termination_by t => sizeOf t

end

theorem tii_members_nil (types : List (Nat × TypeInfo)) :
    tii_members types [] = [] := by
  unfold tii_members
  rfl

theorem tii_members_cons (types : List (Nat × TypeInfo)) (mname : Str)
    (mt : TypeInfo) (moff : Nat) (rest : List (Str × TypeInfo × Nat)) :
    tii_members types ((mname, mt, moff) :: rest)
      = (('.' :: mname, mt, moff)
          :: (type_info_iter types mt).map (fun e =>
            ('.' :: mname ++ e.1, e.2.1, (moff + e.2.2) % W)))
        ++ tii_members types rest := by
  conv_lhs => unfold tii_members

theorem tii_struct (types : List (Nat × TypeInfo)) (nm : Option Str)
    (ui sz : Nat) (members : List (Str × TypeInfo × Nat)) (off : Nat) :
    type_info_iter types (.mk nm ui (.struct sz members) off)
      = tii_members types members := by
  conv_lhs => unfold type_info_iter

theorem tii_array (types : List (Nat × TypeInfo)) (nm : Option Str)
    (ui sz : Nat) (dim : List Nat) (stride : Nat) (arraytype : TypeInfo)
    (off : Nat) :
    type_info_iter types (.mk nm ui (.array sz dim stride arraytype) off)
      = (List.range (dim.foldl (fun a d => a * d) 1)).flatMap (fun i =>
          (chars ("._" ++ toString i ++ "_"), arraytype, (i * stride) % W)
            :: (type_info_iter types arraytype).map (fun e =>
              (chars ("._" ++ toString i ++ "_") ++ e.1, e.2.1,
                ((i * stride) % W + e.2.2) % W))) := by
  conv_lhs => unfold type_info_iter

theorem tii_uint8 (types : List (Nat × TypeInfo)) (nm : Option Str)
    (ui off : Nat) :
    type_info_iter types (.mk nm ui .uint8 off) = [] := by
  unfold type_info_iter
  rfl

/-- The first-match loop of find_symbol_by_offset (src/symbol.rs): return
the first enumerated component whose cumulative offset equals the requested
offset, renamed under the base name and readdressed from the base
address. -/
def fsbo_loop (base_symbol : SymbolInfo) (offset : Nat) :
    List (Str × TypeInfo × Nat) → Option SymbolInfo
  | [] => none
  | (nm, ti, item_offset) :: rest =>
    if item_offset = offset then
      some ⟨base_symbol.name ++ nm, (item_offset + base_symbol.address) % W,
        ti, base_symbol.unit_idx, base_symbol.function_name,
        base_symbol.namespaces, base_symbol.is_unique⟩
    else fsbo_loop base_symbol offset rest

/-- Translation of find_symbol_by_offset (src/symbol.rs): reject a negative
offset or one greater than the base type size cast to i32, then scan the
component enumeration for an exact cumulative-offset match. -/
def find_symbol_by_offset (base_symbol : SymbolInfo) (offset : Int)
    (debug_data : DebugData) : Except String SymbolInfo :=
  if offset < 0 ∨ offset > u64_as_i32 base_symbol.typeinfo.get_size then
    .error ("Offset " ++ toString offset ++ " is out of bounds for symbol \""
      ++ String.mk base_symbol.name ++ "\"")
  else
    let offn := offset.toNat
    match fsbo_loop base_symbol offn
        (type_info_iter debug_data.types base_symbol.typeinfo) with
    | some si => .ok si
    | none =>
      .error ("Could not find a symbol component at offset " ++ toString offn
        ++ " from \"" ++ String.mk base_symbol.name ++ "\"")

/-- Translation of get_varinfo_from_context (src/debuginfo/dwarf/mod.rs):
the enclosing-function name is the name of the first subprogram entry found
scanning the context stack in reverse; the namespace list collects the named
namespace entries, also scanning in reverse. -/
def get_varinfo_from_context (context : List (DwTag × Option Str)) :
    Option Str × List Str :=
  ((context.reverse.find? (fun e => e.1 == DwTag.subprogram)).bind
      (fun e => e.2),
   context.reverse.filterMap (fun e =>
     if e.1 = DwTag.nsTag then e.2 else none))

/-- Modelled from the spec: one debug-info entry at the attribute-accessor
boundary (the accessors live in the external attributes module).  Each field
holds the result of the corresponding accessor: name and type reference may
be absent or erroring, the location is an optional address, and the
specification / abstract-origin links optionally point at another entry. -/
inductive Entry where
  | mk (name : Except String Str) (typeref : Except String Nat)
      (location : Option Nat) (specification : Option Entry)
      (abstract_origin : Option Entry)

/-- The name-accessor result of an entry. -/
def Entry.name : Entry → Except String Str
  | .mk n _ _ _ _ => n

/-- The typeref-accessor result of an entry. -/
def Entry.typeref : Entry → Except String Nat
  | .mk _ t _ _ _ => t

/-- The location-accessor result of an entry. -/
def Entry.location : Entry → Option Nat
  | .mk _ _ l _ _ => l

/-- The specification link of an entry. -/
def Entry.specification : Entry → Option Entry
  | .mk _ _ _ s _ => s

/-- The abstract-origin link of an entry. -/
def Entry.abstract_origin : Entry → Option Entry
  | .mk _ _ _ _ a => a

theorem Entry.name_mk (n : Except String Str) (t : Except String Nat)
    (l : Option Nat) (s a : Option Entry) : (Entry.mk n t l s a).name = n :=
  rfl

theorem Entry.typeref_mk (n : Except String Str) (t : Except String Nat)
    (l : Option Nat) (s a : Option Entry) :
    (Entry.mk n t l s a).typeref = t := rfl

theorem Entry.location_mk (n : Except String Str) (t : Except String Nat)
    (l : Option Nat) (s a : Option Entry) :
    (Entry.mk n t l s a).location = l := rfl

theorem Entry.specification_mk (n : Except String Str)
    (t : Except String Nat) (l : Option Nat) (s a : Option Entry) :
    (Entry.mk n t l s a).specification = s := rfl

theorem Entry.abstract_origin_mk (n : Except String Str)
    (t : Except String Nat) (l : Option Nat) (s a : Option Entry) :
    (Entry.mk n t l s a).abstract_origin = a := rfl

/-- The model of Rust Result::or_else used in get_global_variable: keep the
first result if it is Ok, otherwise use the second. -/
def orElseErr {α : Type} (a b : Except String α) : Except String α :=
  match a with
  | .ok v => .ok v
  | .error _ => b

/-- Translation of get_global_variable (src/debuginfo/dwarf/mod.rs): a
variable entry without a location is a local (Ok none); with an address, the
name and type reference come entirely from the specification target when a
specification link exists, else from the entry with individual fallback to
the abstract-origin target, else from the entry alone; accessor errors
propagate. -/
def get_global_variable (entry : Entry) :
    Except String (Option (Str × Nat × Nat)) :=
  match entry.location with
  | some address =>
    match entry.specification with
    | some specification_entry =>
      match specification_entry.name with
      | .error e => .error e
      | .ok nm =>
        match specification_entry.typeref with
        | .error e => .error e
        | .ok tr => .ok (some (nm, tr, address))
    | none =>
      match entry.abstract_origin with
      | some abstract_origin_entry =>
        match orElseErr entry.name abstract_origin_entry.name with
        | .error e => .error e
        | .ok nm =>
          match orElseErr entry.typeref abstract_origin_entry.typeref with
          | .error e => .error e
          | .ok tr => .ok (some (nm, tr, address))
      | none =>
        match entry.name with
        | .error e => .error e
        | .ok nm =>
          match entry.typeref with
          | .error e => .error e
          | .ok tr => .ok (some (nm, tr, address))
  | none => .ok none

/-- A two-element uint32 array type (the fixture of the src/symbol.rs
tests): total size 8, one dimension of extent 2, stride 4. -/
def arrayU32x2 : TypeInfo := .mk none (W - 1) (.array 8 [2] 4 u32node) 0

/-- Debug data holding the global `my_array : uint32[2]` at 0x1234
(fixture of test_find_symbol_of_array). -/
def dbgArr : DebugData :=
  ⟨[(chars "my_array", [⟨0x1234, 1, 0, none, []⟩])], [(1, arrayU32x2)],
    [], [], [], []⟩

/-- Debug data holding `my_struct` at 0x00cafe00 whose single member
`array_item` is a uint32[2] at offset 0 (fixture of
test_find_symbol_of_array_in_struct). -/
def dbgStruct : DebugData :=
  ⟨[(chars "my_struct", [⟨0x00cafe00, 2, 0, none, []⟩])],
    [(2, .mk none 0 (.struct 4 [(chars "array_item", arrayU32x2, 0)]) 0)],
    [], [], [], []⟩

/-- Debug data with three same-named candidates for `var` in two units
(fixture of test_select_varinfo). -/
def dbgVar : DebugData :=
  ⟨[(chars "var",
      [⟨0, 0, 0, some (chars "func_a"), []⟩,
       ⟨1000, 0, 1, some (chars "func_b"), []⟩,
       ⟨2000, 0, 1, some (chars "func_c"), []⟩])],
    [(0, u32node)], [], [],
    [some (chars "file1.c"), some (chars "file2.c")], []⟩

example :
    split_symbol_components (chars "my_struct.array_field[5][1]")
      = [chars "my_struct", chars "array_field", chars "[5]", chars "[1]"] :=
  by decide

example :
    split_symbol_components (chars "my_struct.array_field._5_._1_")
      = [chars "my_struct", chars "array_field", chars "_5_", chars "_1_"] :=
  by decide

example :
    get_additional_spec (chars
        "varname\x7bFunction:func\x7d\x7bNamespace:Foo\x7d\x7bNamespace:Bar\x7d\x7bCompileUnit:file_c\x7d\x7bNamespace:Global\x7d")
      = (chars "varname",
         some ⟨some (chars "func"), some (chars "file_c"),
           [chars "Foo", chars "Bar"]⟩) :=
  by decide

example :
    find_symbol (chars "my_array._0_") dbgArr
      = some (.ok ⟨chars "my_array._0_", 0x1234, u32node, 0, none, [],
          true⟩) := by
  have hm : find_membertype (TypeInfo.mk none (W - 1) (.array 8 [2] 4
        u32node) 0) dbgArr [chars "my_array", chars "_0_"] 1 0x1234
      = some (.ok (0x1234, u32node)) :=
    (fm_array_ok none (W - 1) 8 [2] 4 u32node 0 dbgArr
        [chars "my_array", chars "_0_"] 1 0x1234 0 (by decide) rfl).trans
      ((fm_exhausted u32node dbgArr [chars "my_array", chars "_0_"]
        (1 + [(2 : Nat)].length) ((0x1234 + (0 * 4) % W) % W)
        (by decide)).trans rfl)
  have hf := fsc_eval_ok (chars "my_array") [chars "_0_"] none dbgArr
    [⟨0x1234, 1, 0, none, []⟩] ⟨0x1234, 1, 0, none, []⟩
    (TypeInfo.mk none (W - 1) (.array 8 [2] 4 u32node) 0) 0x1234 u32node
    rfl rfl rfl hm
  exact fs_eval_ok (chars "my_array._0_") dbgArr (chars "my_array._0_") none
    (chars "my_array") [chars "_0_"] _ rfl rfl hf

example :
    find_symbol (chars "my_array[0]") dbgArr
      = some (.ok ⟨chars "my_array[0]", 0x1234, u32node, 0, none, [],
          true⟩) := by
  have hm : find_membertype (TypeInfo.mk none (W - 1) (.array 8 [2] 4
        u32node) 0) dbgArr [chars "my_array", chars "[0]"] 1 0x1234
      = some (.ok (0x1234, u32node)) :=
    (fm_array_ok none (W - 1) 8 [2] 4 u32node 0 dbgArr
        [chars "my_array", chars "[0]"] 1 0x1234 0 (by decide) rfl).trans
      ((fm_exhausted u32node dbgArr [chars "my_array", chars "[0]"]
        (1 + [(2 : Nat)].length) ((0x1234 + (0 * 4) % W) % W)
        (by decide)).trans rfl)
  have hf := fsc_eval_ok (chars "my_array") [chars "[0]"] none dbgArr
    [⟨0x1234, 1, 0, none, []⟩] ⟨0x1234, 1, 0, none, []⟩
    (TypeInfo.mk none (W - 1) (.array 8 [2] 4 u32node) 0) 0x1234 u32node
    rfl rfl rfl hm
  exact fs_eval_ok (chars "my_array[0]") dbgArr (chars "my_array[0]") none
    (chars "my_array") [chars "[0]"] _ rfl rfl hf

example :
    find_symbol (chars "my_array") dbgArr
      = some (.ok ⟨chars "my_array", 0x1234, arrayU32x2, 0, none, [],
          true⟩) := by
  have hm : find_membertype (TypeInfo.mk none (W - 1) (.array 8 [2] 4
        u32node) 0) dbgArr [chars "my_array"] 1 0x1234
      = some (.ok (0x1234, TypeInfo.mk none (W - 1) (.array 8 [2] 4
          u32node) 0)) :=
    fm_exhausted _ dbgArr [chars "my_array"] 1 0x1234 (by decide)
  have hf := fsc_eval_ok (chars "my_array") [] none dbgArr
    [⟨0x1234, 1, 0, none, []⟩] ⟨0x1234, 1, 0, none, []⟩
    (TypeInfo.mk none (W - 1) (.array 8 [2] 4 u32node) 0) 0x1234
    (TypeInfo.mk none (W - 1) (.array 8 [2] 4 u32node) 0) rfl rfl rfl hm
  exact fs_eval_ok (chars "my_array") dbgArr (chars "my_array") none
    (chars "my_array") [] _ rfl rfl hf

example :
    find_symbol (chars "my_array._0_.lalala") dbgArr
      = some (.error (remaining_msg [chars "my_array", chars "_0_",
          chars "lalala"] 2)) := by
  have hm : find_membertype (TypeInfo.mk none (W - 1) (.array 8 [2] 4
        u32node) 0) dbgArr [chars "my_array", chars "_0_", chars "lalala"]
        1 0x1234
      = some (.error (remaining_msg [chars "my_array", chars "_0_",
          chars "lalala"] 2)) :=
    (fm_array_ok none (W - 1) 8 [2] 4 u32node 0 dbgArr
        [chars "my_array", chars "_0_", chars "lalala"] 1 0x1234 0
        (by decide) rfl).trans
      (fm_leaf none (W - 1) .uint32 0 dbgArr
        [chars "my_array", chars "_0_", chars "lalala"]
        (1 + [(2 : Nat)].length) ((0x1234 + (0 * 4) % W) % W)
        (by decide) rfl)
  have hf := fsc_eval_err (chars "my_array") [chars "_0_", chars "lalala"]
    none dbgArr [⟨0x1234, 1, 0, none, []⟩] ⟨0x1234, 1, 0, none, []⟩
    (TypeInfo.mk none (W - 1) (.array 8 [2] 4 u32node) 0) _ rfl rfl rfl hm
  exact fs_eval_err_nodemangle (chars "my_array._0_.lalala") dbgArr
    (chars "my_array._0_.lalala") none (chars "my_array")
    [chars "_0_", chars "lalala"] _ rfl rfl hf rfl

example :
    find_symbol (chars "my_array._2_") dbgArr
      = some (.error (bounds_msg 2 [chars "my_array", chars "_2_"] 2)) := by
  have hm : find_membertype (TypeInfo.mk none (W - 1) (.array 8 [2] 4
        u32node) 0) dbgArr [chars "my_array", chars "_2_"] 1 0x1234
      = some (.error (bounds_msg 2 [chars "my_array", chars "_2_"] 2)) :=
    fm_array_err none (W - 1) 8 [2] 4 u32node 0 dbgArr
      [chars "my_array", chars "_2_"] 1 0x1234 _ (by decide) rfl
  have hf := fsc_eval_err (chars "my_array") [chars "_2_"] none dbgArr
    [⟨0x1234, 1, 0, none, []⟩] ⟨0x1234, 1, 0, none, []⟩
    (TypeInfo.mk none (W - 1) (.array 8 [2] 4 u32node) 0) _ rfl rfl rfl hm
  exact fs_eval_err_nodemangle (chars "my_array._2_") dbgArr
    (chars "my_array._2_") none (chars "my_array") [chars "_2_"] _ rfl rfl
    hf rfl

example : get_index (chars "_") = none := by decide

example : find_symbol (chars "my_array._") dbgArr = none := by
  have hm : find_membertype (TypeInfo.mk none (W - 1) (.array 8 [2] 4
        u32node) 0) dbgArr [chars "my_array", chars "_"] 1 0x1234 = none :=
    fm_array_panic none (W - 1) 8 [2] 4 u32node 0 dbgArr
      [chars "my_array", chars "_"] 1 0x1234 (by decide) rfl
  have hf := fsc_eval_panic (chars "my_array") [chars "_"] none dbgArr
    [⟨0x1234, 1, 0, none, []⟩] ⟨0x1234, 1, 0, none, []⟩
    (TypeInfo.mk none (W - 1) (.array 8 [2] 4 u32node) 0) rfl rfl rfl hm
  exact fs_eval_panic (chars "my_array._") dbgArr (chars "my_array._") none
    (chars "my_array") [chars "_"] rfl rfl hf

example :
    find_symbol (chars "my_struct.array_item._0_") dbgStruct
      = some (.ok ⟨chars "my_struct.array_item._0_", 0x00cafe00, u32node, 0,
          none, [], true⟩) := by
  have hm : find_membertype (TypeInfo.mk none 0 (.struct 4
        [(chars "array_item", arrayU32x2, 0)]) 0) dbgStruct
        [chars "my_struct", chars "array_item", chars "_0_"] 1 0x00cafe00
      = some (.ok (0x00cafe00, u32node)) :=
    (fm_struct_found none 0 4 [(chars "array_item", arrayU32x2, 0)] 0
        dbgStruct [chars "my_struct", chars "array_item", chars "_0_"] 1
        0x00cafe00 arrayU32x2 0 (by decide) rfl).trans
      ((fm_array_ok none (W - 1) 8 [2] 4 u32node 0 dbgStruct
          [chars "my_struct", chars "array_item", chars "_0_"] (1 + 1)
          ((0x00cafe00 + 0) % W) 0 (by decide) rfl).trans
        ((fm_exhausted u32node dbgStruct
          [chars "my_struct", chars "array_item", chars "_0_"]
          (1 + 1 + [(2 : Nat)].length)
          ((((0x00cafe00 + 0) % W) + (0 * 4) % W) % W) (by decide)).trans
          rfl))
  have hf := fsc_eval_ok (chars "my_struct")
    [chars "array_item", chars "_0_"] none dbgStruct
    [⟨0x00cafe00, 2, 0, none, []⟩] ⟨0x00cafe00, 2, 0, none, []⟩
    (TypeInfo.mk none 0 (.struct 4 [(chars "array_item", arrayU32x2, 0)]) 0)
    0x00cafe00 u32node rfl rfl rfl hm
  exact fs_eval_ok (chars "my_struct.array_item._0_") dbgStruct
    (chars "my_struct.array_item._0_") none (chars "my_struct")
    [chars "array_item", chars "_0_"] _ rfl rfl hf

example :
    (select_varinfo
        [⟨0, 0, 0, some (chars "func_a"), []⟩,
         ⟨1000, 0, 1, some (chars "func_b"), []⟩,
         ⟨2000, 0, 1, some (chars "func_c"), []⟩]
        (get_additional_spec (chars
          "var\x7bFunction:func_a\x7d\x7bCompileUnit:file1_c\x7d\x7bNamespace:Global\x7d")).2
        dbgVar).map VarInfo.address = some 0 := rfl

example :
    (select_varinfo
        [⟨0, 0, 0, some (chars "func_a"), []⟩,
         ⟨1000, 0, 1, some (chars "func_b"), []⟩,
         ⟨2000, 0, 1, some (chars "func_c"), []⟩]
        (get_additional_spec (chars
          "var\x7bFunction:func_b\x7d\x7bCompileUnit:file2_c\x7d\x7bNamespace:Global\x7d")).2
        dbgVar).map VarInfo.address = some 1000 := rfl

example :
    (select_varinfo
        [⟨0, 0, 0, some (chars "func_a"), []⟩,
         ⟨1000, 0, 1, some (chars "func_b"), []⟩,
         ⟨2000, 0, 1, some (chars "func_c"), []⟩]
        (get_additional_spec (chars
          "var\x7bFunction:func_c\x7d\x7bCompileUnit:file2_c\x7d\x7bNamespace:Global\x7d")).2
        dbgVar).map VarInfo.address = some 2000 := rfl

theorem getLast?_cons_or {α : Type} (x : α) (l : List α) :
    (x :: l).getLast? = l.getLast?.or (some x) := by
  induction l generalizing x with
  | nil => rfl
  | cons y ys ih =>
    rw [List.getLast?_cons_cons]
    rw [ih y]
    cases hy : ys.getLast? with
    | none => simp
    | some v => simp

theorem reverse_find?_eq_filter_getLast? {α : Type} (p : α → Bool)
    (l : List α) : l.reverse.find? p = (l.filter p).getLast? := by
  induction l with
  | nil => rfl
  | cons x xs ih =>
    rw [List.reverse_cons, List.find?_append, ih, List.filter_cons]
    by_cases hx : p x = true
    · simp only [hx, if_pos]
      rw [getLast?_cons_or]
      simp [List.find?, hx]
    · simp only [hx]
      simp [List.find?, hx]

/-- C2 (corrected): for every context stack, the extractor's context summary
carries the name attached to the innermost subprogram entry (the last
subprogram entry of the stack, none when that entry is unnamed), and the
names of the named namespace entries in inner-to-outer order — that is, the
reverse of the outer-to-inner order in which they appear on the stack.  The
frozen claim instead asserts outer-to-inner order for the namespace list;
see the counterexample. -/
theorem C2_context_summary (context : List (DwTag × Option Str)) :
    get_varinfo_from_context context
      = ((context.filter (fun e => e.1 == DwTag.subprogram)).getLast?.bind
          (fun e => e.2),
         (context.filterMap (fun e =>
           if e.1 = DwTag.nsTag then e.2 else none)).reverse) := by
  unfold get_varinfo_from_context
  rw [reverse_find?_eq_filter_getLast?]
  rw [List.filterMap_reverse]

/-- C2 counterexample: a context of two named namespaces, outer namespace A
then inner namespace B, is recorded with namespace list B, A — the
inner-to-outer order — which differs from the outer-to-inner order A, B
asserted by the claim. -/
theorem C2_counterexample :
    get_varinfo_from_context
        [(DwTag.nsTag, some (chars "A")), (DwTag.nsTag, some (chars "B"))]
      = (none, [chars "B", chars "A"])
    ∧ [chars "B", chars "A"] ≠ [chars "A", chars "B"] := by
  constructor
  · rfl
  · decide

theorem stripPre_append (p s : Str) : stripPre p (p ++ s) = some s := by
  induction p with
  | nil => rfl
  | cons a ps ih => simp [stripPre, ih]

theorem stripPre_cons_ne (a b : Char) (ps ss : Str) (h : a ≠ b) :
    stripPre (a :: ps) (b :: ss) = none := by
  simp [stripPre, h]

theorem findCharIdx_eq_none (c : Char) (s : Str) (h : c ∉ s) :
    findCharIdx c s = none := by
  induction s with
  | nil => rfl
  | cons x rest ih =>
    simp only [List.mem_cons, not_or] at h
    have hx : ¬ x = c := fun hh => h.1 hh.symm
    simp [findCharIdx, hx, ih h.2]

theorem findCharIdx_append (c : Char) (base rest : Str) (h : c ∉ base) :
    findCharIdx c (base ++ c :: rest) = some base.length := by
  induction base with
  | nil => simp [findCharIdx]
  | cons x xs ih =>
    simp at h
    have hx : x ≠ c := fun hx => h.1 hx.symm
    simp [findCharIdx, hx, ih h.2]

/-- C3 (confirmed): disambiguation-suffix parsing.  Scanning the brace
groups is left to right: a Function: group overwrites the singular function
filter, a Namespace: group appends to the ordered namespace list, and the
first CompileUnit: group sets the singular compile-unit filter and stops
the scan, so every following group is ignored.  An expression without an
open brace yields no filter, and an expression of the form
base-brace-groups-brace parses the groups from the suffix between the
braces.  The final conjunct checks the worked example of the spec: base x,
function f, namespaces Foo and Bar, compile unit u, with the trailing
Namespace:Global group dropped. -/
theorem C3_suffix_scan :
    (∀ v : Str, obr ∉ v → get_additional_spec v = (v, none))
    ∧ (∀ (s : AdditionalSpec) (f : Str) (rest : List Str),
        scan_spec s ((chars "Function:" ++ f) :: rest)
          = scan_spec { s with function_name := some f } rest)
    ∧ (∀ (s : AdditionalSpec) (n : Str) (rest : List Str),
        scan_spec s ((chars "Namespace:" ++ n) :: rest)
          = scan_spec { s with namespaces := s.namespaces ++ [n] } rest)
    ∧ (∀ (s : AdditionalSpec) (u : Str) (rest : List Str),
        scan_spec s ((chars "CompileUnit:" ++ u) :: rest)
          = { s with simple_unit_name := some u })
    ∧ (∀ base inner : Str, obr ∉ base →
        get_additional_spec (base ++ obr :: (inner ++ [cbr]))
          = (base, some (scan_spec ⟨none, none, []⟩ (splitOnSep inner))))
    ∧ get_additional_spec (chars
          "x\x7bFunction:f\x7d\x7bNamespace:Foo\x7d\x7bNamespace:Bar\x7d\x7bCompileUnit:u\x7d\x7bNamespace:Global\x7d")
        = (chars "x",
           some ⟨some (chars "f"), some (chars "u"),
             [chars "Foo", chars "Bar"]⟩) := by
  refine ⟨?_, ?_, ?_, ?_, ?_, ?_⟩
  · intro v hv
    unfold get_additional_spec
    rw [findCharIdx_eq_none obr v hv]
  · intro s f rest
    have h1 : stripPre (chars "Function:") (chars "Function:" ++ f)
        = some f := stripPre_append _ _
    simp only [scan_spec, h1]
  · intro s n rest
    have h1 : stripPre (chars "Function:") (chars "Namespace:" ++ n)
        = none := by
      rw [show chars "Namespace:" = 'N' :: chars "amespace:" from rfl,
        List.cons_append,
        show chars "Function:" = 'F' :: chars "unction:" from rfl]
      exact stripPre_cons_ne _ _ _ _ (by decide)
    have h2 : stripPre (chars "Namespace:") (chars "Namespace:" ++ n)
        = some n := stripPre_append _ _
    simp only [scan_spec, h1, h2]
  · intro s u rest
    have h1 : stripPre (chars "Function:") (chars "CompileUnit:" ++ u)
        = none := by
      rw [show chars "CompileUnit:" = 'C' :: chars "ompileUnit:" from rfl,
        List.cons_append,
        show chars "Function:" = 'F' :: chars "unction:" from rfl]
      exact stripPre_cons_ne _ _ _ _ (by decide)
    have h2 : stripPre (chars "Namespace:") (chars "CompileUnit:" ++ u)
        = none := by
      rw [show chars "CompileUnit:" = 'C' :: chars "ompileUnit:" from rfl,
        List.cons_append,
        show chars "Namespace:" = 'N' :: chars "amespace:" from rfl]
      exact stripPre_cons_ne _ _ _ _ (by decide)
    have h3 : stripPre (chars "CompileUnit:") (chars "CompileUnit:" ++ u)
        = some u := stripPre_append _ _
    simp only [scan_spec, h1, h2, h3]
  · intro base inner hb
    unfold get_additional_spec
    rw [findCharIdx_append obr base (inner ++ [cbr]) hb]
    have ht : (base ++ obr :: (inner ++ [cbr])).take base.length = base :=
      List.take_left base (obr :: (inner ++ [cbr]))
    have hd : (base ++ obr :: (inner ++ [cbr])).drop base.length
        = obr :: (inner ++ [cbr]) :=
      List.drop_left base (obr :: (inner ++ [cbr]))
    have hstrip : stripPre [obr] (obr :: (inner ++ [cbr]))
        = some (inner ++ [cbr]) := by simp [stripPre]
    have hsuf : stripSufChar cbr (inner ++ [cbr]) = some inner := by
      simp [stripSufChar, List.getLast?_concat, List.dropLast_concat]
    simp only [ht, hd, hstrip, hsuf, Option.bind_some]
    simp [hsuf]
  · decide

/-- C3 witness: the no-brace conjunct at the expression abc and the
expression-level conjunct at base v with the single suffix group
Function:f. -/
theorem C3_suffix_scan_witness :
    get_additional_spec (chars "abc") = (chars "abc", none)
    ∧ get_additional_spec (chars "v" ++ obr :: (chars "Function:f" ++ [cbr]))
      = (chars "v",
         some (scan_spec ⟨none, none, []⟩ (splitOnSep (chars "Function:f")))) :=
  ⟨C3_suffix_scan.1 (chars "abc") (by decide),
   C3_suffix_scan.2.2.2.2.1 (chars "v") (chars "Function:f") (by decide)⟩

/-- C7 (confirmed): name and type-reference resolution of a located
variable entry follows the three-way attribute-indirection priority.  An
entry with no location attribute is skipped as a local (Ok none, not an
error).  When a specification link exists, name and typeref come entirely
from the specification target: the result is invariant under changes to the
entry's own name, typeref and abstract-origin link, and equals the target's
name and typeref when those resolve.  With no specification but an
abstract-origin link, the entry's own attributes win when present and fall
back individually to the abstract-origin target.  With neither link, the
entry's own attributes are used directly. -/
theorem C7_attribute_indirection :
    (∀ (n : Except String Str) (t : Except String Nat)
        (s a : Option Entry),
      get_global_variable (.mk n t none s a) = .ok none)
    ∧ (∀ (n n' : Except String Str) (t t' : Except String Nat) (loc : Nat)
        (se : Entry) (a a' : Option Entry),
      get_global_variable (.mk n t (some loc) (some se) a)
        = get_global_variable (.mk n' t' (some loc) (some se) a'))
    ∧ (∀ (n : Except String Str) (t : Except String Nat) (loc : Nat)
        (se : Entry) (a : Option Entry) (nm : Str) (tr : Nat),
      se.name = .ok nm → se.typeref = .ok tr →
      get_global_variable (.mk n t (some loc) (some se) a)
        = .ok (some (nm, tr, loc)))
    ∧ (∀ (nm : Str) (tr : Nat) (loc : Nat) (ao : Entry),
      get_global_variable (.mk (.ok nm) (.ok tr) (some loc) none (some ao))
        = .ok (some (nm, tr, loc)))
    ∧ (∀ (e : String) (tr : Nat) (loc : Nat) (ao : Entry) (nm : Str),
      ao.name = .ok nm →
      get_global_variable
          (.mk (.error e) (.ok tr) (some loc) none (some ao))
        = .ok (some (nm, tr, loc)))
    ∧ (∀ (nm : Str) (e : String) (loc : Nat) (ao : Entry) (tr : Nat),
      ao.typeref = .ok tr →
      get_global_variable
          (.mk (.ok nm) (.error e) (some loc) none (some ao))
        = .ok (some (nm, tr, loc)))
    ∧ (∀ (nm : Str) (tr : Nat) (loc : Nat),
      get_global_variable (.mk (.ok nm) (.ok tr) (some loc) none none)
        = .ok (some (nm, tr, loc))) := by
  refine ⟨?_, ?_, ?_, ?_, ?_, ?_, ?_⟩
  · intro n t s a
    rfl
  · intro n n' t t' loc se a a'
    rfl
  · intro n t loc se a nm tr hn ht
    unfold get_global_variable
    simp [Entry.location_mk, Entry.specification_mk, hn, ht]
  · intro nm tr loc ao
    rfl
  · intro e tr loc ao nm hn
    unfold get_global_variable
    simp [Entry.location_mk, Entry.specification_mk, Entry.abstract_origin_mk,
      Entry.name_mk, Entry.typeref_mk, orElseErr, hn]
  · intro nm e loc ao tr ht
    unfold get_global_variable
    simp [Entry.location_mk, Entry.specification_mk, Entry.abstract_origin_mk,
      Entry.name_mk, Entry.typeref_mk, orElseErr, ht]
  · intro nm tr loc
    rfl

/-- C7 witness: the specification-target conjunct applied to an entry whose
own name and typeref accessors error, yet resolution succeeds from the
specification target with name x, typeref 7 and the entry's own address
100. -/
theorem C7_attribute_indirection_witness :
    get_global_variable
        (.mk (.error "no name") (.error "no type") (some 100)
          (some (.mk (.ok (chars "x")) (.ok 7) none none none)) none)
      = .ok (some (chars "x", 7, 100)) :=
  C7_attribute_indirection.2.2.1 (.error "no name") (.error "no type") 100
    (.mk (.ok (chars "x")) (.ok 7) none none none) none (chars "x") 7 rfl rfl

theorem sv_find_eq_find? (debug_data : DebugData) (spec : AdditionalSpec)
    (vl : List VarInfo) :
    sv_find debug_data spec vl
      = vl.find? (fun vi => sv_matches debug_data spec vi) := by
  induction vl with
  | nil => rfl
  | cons vi rest ih =>
    rw [sv_find, List.find?]
    by_cases hm : sv_matches debug_data spec vi = true
    · simp [hm]
    · simp [hm, ih]

/-- The empty debug-data snapshot, used by concrete instances. -/
def dbgEmpty : DebugData := ⟨[], [], [], [], [], []⟩

/-- C1 (corrected): with a disambiguation suffix present, select_varinfo
returns the first candidate in table order satisfying the code's filter —
the unit filter is unset or equal (under normalization) to the candidate's
unit display name, the function filter is unset or equal to the candidate's
function, and the suffix's namespace list is exactly equal to the
candidate's namespace list — and silently falls back to the first candidate
when none satisfies it; it never returns an error for a nonempty candidate
list.  Contrary to the frozen claim, an unset (empty) namespace-filter list
is not neutral: it is still compared by exact equality, so it only matches
candidates with no enclosing namespaces (see the counterexample). -/
theorem C1_select_varinfo (vl : List VarInfo) (s : AdditionalSpec)
    (dbg : DebugData) (h : vl ≠ []) :
    select_varinfo vl (some s) dbg
      = some ((vl.find? (fun vi =>
            (s.simple_unit_name.isNone
              || s.simple_unit_name
                == make_simple_unit_name dbg vi.unit_idx)
            && (s.function_name.isNone || s.function_name == vi.function)
            && s.namespaces == vi.namespaces)).getD (vl.head h)) := by
  simp only [select_varinfo]
  rw [sv_find_eq_find?]
  cases hf : vl.find? (fun vi => sv_matches dbg s vi) with
  | some vi =>
    have : vl.find? (fun vi =>
        (s.simple_unit_name.isNone
          || s.simple_unit_name == make_simple_unit_name dbg vi.unit_idx)
        && (s.function_name.isNone || s.function_name == vi.function)
        && s.namespaces == vi.namespaces) = some vi := hf
    rw [this]
    rfl
  | none =>
    have : vl.find? (fun vi =>
        (s.simple_unit_name.isNone
          || s.simple_unit_name == make_simple_unit_name dbg vi.unit_idx)
        && (s.function_name.isNone || s.function_name == vi.function)
        && s.namespaces == vi.namespaces) = none := hf
    rw [this]
    simp [List.head?_eq_head h]

/-- C1 witness: a single candidate with an all-unset suffix is selected. -/
theorem C1_select_varinfo_witness :
    select_varinfo [⟨5, 0, 0, none, []⟩] (some ⟨none, none, []⟩) dbgEmpty
      = some ⟨5, 0, 0, none, []⟩ :=
  (C1_select_varinfo [⟨5, 0, 0, none, []⟩] ⟨none, none, []⟩ dbgEmpty
    (by decide)).trans (by decide)

/-- C1 counterexample: the suffix sets only a function filter f and no
namespace groups.  The second candidate is the only one whose function is f,
and under the claim the unset namespace filter matches every candidate, so
the claim requires the second candidate to be selected; the code falls back
to the first candidate because the empty namespace-filter list fails the
exact-equality comparison against the second candidate's namespace list. -/
theorem C1_counterexample :
    select_varinfo
        [⟨0, 0, 0, some (chars "g"), []⟩,
         ⟨1000, 0, 0, some (chars "f"), [chars "N"]⟩]
        (some ⟨some (chars "f"), none, []⟩) dbgEmpty
      = some ⟨0, 0, 0, some (chars "g"), []⟩
    ∧ (some (chars "f") : Option Str) ≠ some (chars "g")
    ∧ (⟨0, 0, 0, some (chars "g"), []⟩ : VarInfo)
        ≠ ⟨1000, 0, 0, some (chars "f"), [chars "N"]⟩ := by
  refine ⟨by decide, by decide, by decide⟩

/-- C5 (code_bug): resolution is not total.  get_index tests the prefix and
suffix of a component independently, so the one-character component
consisting of a single underscore passes both tests with the same
character, and the slice 1..0 taken next panics in Rust (slice index starts
at 1 but ends at 0).  The panic is reachable from the public resolver: with
the two-element-array fixture of the repository's own tests, resolving the
expression my_array followed by a lone underscore component panics instead
of returning the UnparsableIndex error the claim (and spec section 7)
requires. -/
theorem C5_panic_on_lone_underscore :
    get_index (chars "_") = none
    ∧ find_symbol (chars "my_array._") dbgArr = none := by
  constructor
  · decide
  · have hm : find_membertype (TypeInfo.mk none (W - 1) (.array 8 [2] 4
          u32node) 0) dbgArr [chars "my_array", chars "_"] 1 0x1234 = none :=
      fm_array_panic none (W - 1) 8 [2] 4 u32node 0 dbgArr
        [chars "my_array", chars "_"] 1 0x1234 (by decide) rfl
    have hf := fsc_eval_panic (chars "my_array") [chars "_"] none dbgArr
      [⟨0x1234, 1, 0, none, []⟩] ⟨0x1234, 1, 0, none, []⟩
      (TypeInfo.mk none (W - 1) (.array 8 [2] 4 u32node) 0) rfl rfl rfl hm
    exact fs_eval_panic (chars "my_array._") dbgArr (chars "my_array._")
      none (chars "my_array") [chars "_"] rfl rfl hf

/-- C10 (confirmed): when the selected candidate's typeref is not a key of
the type map, a single-component expression still resolves successfully to
the variable's address with the default unsigned 8-bit type (no name, unit
index usize::MAX, offset key 0) and no function context, while an
expression with further components fails with the remaining-portion error
rather than a missing-type error. -/
theorem C10_missing_typeref (c0 : Str) (rest : List Str)
    (additional_spec : Option AdditionalSpec) (dbg : DebugData)
    (vl : List VarInfo) (vi : VarInfo)
    (hv : alookup dbg.variables c0 = some vl)
    (hs : select_varinfo vl additional_spec dbg = some vi)
    (ht : alookup dbg.types vi.typeref = none) :
    (rest = [] →
      find_symbol_from_components (c0 :: rest) additional_spec dbg
        = some (.ok ⟨[], vi.address, default_uint8, vi.unit_idx, none,
            vi.namespaces, vl.length == 1⟩))
    ∧ (∀ r0 rrest, rest = r0 :: rrest →
      find_symbol_from_components (c0 :: rest) additional_spec dbg
        = some (.error (remaining_msg (c0 :: rest) 1))) := by
  constructor
  · intro hrest
    subst hrest
    exact fsc_eval_notype_single c0 additional_spec dbg vl vi hv hs ht
  · intro r0 rrest hrest
    subst hrest
    exact fsc_eval_notype_multi c0 r0 rrest additional_spec dbg vl vi hv hs
      ht

/-- Debug data whose single variable v has a dangling typeref (no entry 99
in the type map). -/
def dbgNoType : DebugData :=
  ⟨[(chars "v", [⟨7, 99, 0, none, []⟩])], [], [], [], [], []⟩

/-- C10 witness: with a dangling typeref, the bare variable name resolves
to address 7 with the default u8 type and no function context, while a
two-component path fails with the remaining-portion error. -/
theorem C10_missing_typeref_witness :
    find_symbol_from_components [chars "v"] none dbgNoType
      = some (.ok ⟨[], 7, default_uint8, 0, none, [], true⟩)
    ∧ find_symbol_from_components [chars "v", chars "x"] none dbgNoType
      = some (.error (remaining_msg [chars "v", chars "x"] 1)) :=
  ⟨((C10_missing_typeref (chars "v") [] none dbgNoType
      [⟨7, 99, 0, none, []⟩] ⟨7, 99, 0, none, []⟩ rfl rfl rfl).1 rfl).trans
      rfl,
   (C10_missing_typeref (chars "v") [chars "x"] none dbgNoType
      [⟨7, 99, 0, none, []⟩] ⟨7, 99, 0, none, []⟩ rfl rfl rfl).2 (chars "x")
      [] rfl⟩

theorem fs_eval_err_demangle_err (varname : Str) (dbg : DebugData)
    (plain : Str) (additional_spec : Option AdditionalSpec) (c0 : Str)
    (crest : List Str) (e : String) (mangled : Str) (e2 : String)
    (hp : get_additional_spec varname = (plain, additional_spec))
    (hs : split_symbol_components plain = c0 :: crest)
    (hf : find_symbol_from_components (c0 :: crest) additional_spec dbg
      = some (.error e))
    (hd : alookup dbg.demangled_names c0 = some mangled)
    (hf2 : find_symbol_from_components (mangled :: crest) additional_spec dbg
      = some (.error e2)) :
    find_symbol varname dbg = some (.error e) := by
  unfold find_symbol
  simp only [hp, hs, hf, hd, hf2]

theorem stripPre_of_prefix (p s : Str) (h : p <+: s) :
    stripPre p s = some (s.drop p.length) := by
  obtain ⟨t, rfl⟩ := h
  rw [stripPre_append, List.drop_left]

theorem splitOnChar_ne_nil (c : Char) (s : Str) : splitOnChar c s ≠ [] := by
  induction s with
  | nil => simp [splitOnChar]
  | cons x rest ih =>
    rw [splitOnChar]
    by_cases hx : x = c
    · simp [hx]
    · simp only [if_neg hx]
      cases hsp : splitOnChar c rest <;> simp

theorem splitOnChar_head_prefix (c : Char) (s : Str) :
    (splitOnChar c s).headD [] <+: s := by
  induction s with
  | nil => simp [splitOnChar]
  | cons x rest ih =>
    rw [splitOnChar]
    by_cases hx : x = c
    · simp [hx]
    · simp only [if_neg hx]
      cases hsp : splitOnChar c rest with
      | nil => exact absurd hsp (splitOnChar_ne_nil c rest)
      | cons h t =>
        rw [hsp] at ih
        simp only [List.headD_cons] at ih ⊢
        exact (List.cons_prefix_cons).2 ⟨rfl, ih⟩

theorem ssc_ne_nil (v : Str) : split_symbol_components v ≠ [] := by
  unfold split_symbol_components
  cases hsp : splitOnChar '.' v with
  | nil => exact absurd hsp (splitOnChar_ne_nil '.' v)
  | cons s0 srest =>
    rw [List.flatMap_cons]
    cases hfi : findCharIdx '[' s0 <;> simp [hfi]

theorem ssc_head_prefix (v : Str) :
    (split_symbol_components v).headD [] <+: v := by
  unfold split_symbol_components
  have h0 := splitOnChar_head_prefix '.' v
  cases hsp : splitOnChar '.' v with
  | nil => exact absurd hsp (splitOnChar_ne_nil '.' v)
  | cons s0 srest =>
    rw [hsp] at h0
    simp only [List.headD_cons] at h0
    rw [List.flatMap_cons]
    cases hfi : findCharIdx '[' s0 with
    | some idx =>
      simp only [hfi, List.cons_append, List.headD_cons]
      exact (List.take_prefix idx s0).trans h0
    | none =>
      simp only [hfi, List.singleton_append, List.headD_cons]
      exact h0

theorem gas_fst_prefix (v : Str) : (get_additional_spec v).1 <+: v := by
  unfold get_additional_spec
  cases hf : findCharIdx obr v with
  | none => simp
  | some pos =>
    cases hb : (stripPre [obr] (v.drop pos)).bind (stripSufChar cbr) with
    | none => simp [hb, List.take_prefix]
    | some inner => simp [hb, List.take_prefix]

/-- C6 (confirmed): when the base component of an expression is absent from
the variable table, resolution is retried with the mangled substitute if
and only if the base component is a key of the demangled-name index: with
no index entry the resolver reports that the symbol does not exist; with an
index entry and a successful retry the result is reported under the mangled
name joined with the rest of the original expression (everything after the
base component, disambiguation suffix included); and when the retry also
fails, the original symbol-does-not-exist error is returned. -/
theorem C6_demangled_fallback (varname plain : Str)
    (additional_spec : Option AdditionalSpec) (c0 : Str) (crest : List Str)
    (dbg : DebugData)
    (hp : get_additional_spec varname = (plain, additional_spec))
    (hs : split_symbol_components plain = c0 :: crest)
    (habs : alookup dbg.variables c0 = none) :
    (alookup dbg.demangled_names c0 = none →
      find_symbol varname dbg
        = some (.error ("Symbol \"" ++ String.mk c0
            ++ "\" does not exist")))
    ∧ (∀ mangled si,
      alookup dbg.demangled_names c0 = some mangled →
      find_symbol_from_components (mangled :: crest) additional_spec dbg
        = some (.ok si) →
      find_symbol varname dbg
        = some (.ok { si with
            name := mangled ++ varname.drop c0.length }))
    ∧ (∀ mangled e2,
      alookup dbg.demangled_names c0 = some mangled →
      find_symbol_from_components (mangled :: crest) additional_spec dbg
        = some (.error e2) →
      find_symbol varname dbg
        = some (.error ("Symbol \"" ++ String.mk c0
            ++ "\" does not exist"))) := by
  have hfsc : find_symbol_from_components (c0 :: crest) additional_spec dbg
      = some (.error ("Symbol \"" ++ String.mk c0 ++ "\" does not exist")) :=
    fsc_eval_nosym c0 crest additional_spec dbg habs
  have hpre : c0 <+: varname := by
    have h1 : c0 <+: plain := by
      have := ssc_head_prefix plain
      rw [hs] at this
      simpa using this
    have h2 : plain <+: varname := by
      have := gas_fst_prefix varname
      rw [hp] at this
      simpa using this
    exact h1.trans h2
  refine ⟨?_, ?_, ?_⟩
  · intro hd
    exact fs_eval_err_nodemangle varname dbg plain additional_spec c0 crest
      _ hp hs hfsc hd
  · intro mangled si hd hf2
    have hstrip : stripPre c0 varname = some (varname.drop c0.length) :=
      stripPre_of_prefix c0 varname hpre
    exact fs_eval_err_demangle_ok varname dbg plain additional_spec c0 crest
      _ mangled si (varname.drop c0.length) hp hs hfsc hd hf2 hstrip
  · intro mangled e2 hd hf2
    exact fs_eval_err_demangle_err varname dbg plain additional_spec c0
      crest _ mangled e2 hp hs hfsc hd hf2

/-- C6 witness: the readable name Foo::x is not in the variable table but
is a key of the demangled-name index; resolution retries with the mangled
name _Zx, succeeds at address 42, and reports the result under the mangled
name (the remaining original path is empty). -/
theorem C6_demangled_fallback_witness :
    find_symbol (chars "Foo::x") dbgMangled
      = some (.ok ⟨chars "_Zx", 42, TypeInfo.mk none 0 .uint32 0, 0, none,
          [], true⟩) := by
  have hf2 : find_symbol_from_components [chars "_Zx"] none dbgMangled
      = some (.ok ⟨[], 42, TypeInfo.mk none 0 .uint32 0, 0, none, [],
          true⟩) :=
    fsc_eval_ok (chars "_Zx") [] none dbgMangled [⟨42, 9, 0, none, []⟩]
      ⟨42, 9, 0, none, []⟩ (TypeInfo.mk none 0 .uint32 0) 42
      (TypeInfo.mk none 0 .uint32 0) rfl rfl rfl
      (fm_exhausted (TypeInfo.mk none 0 .uint32 0) dbgMangled
        [chars "_Zx"] 1 42 (by decide))
  exact ((C6_demangled_fallback (chars "Foo::x") (chars "Foo::x") none
      (chars "Foo::x") [] dbgMangled rfl rfl rfl).2.1 (chars "_Zx")
      ⟨[], 42, TypeInfo.mk none 0 .uint32 0, 0, none, [], true⟩ rfl
      hf2).trans rfl

theorem row_major_fold_modeq (dims : List Nat) (idxs : Nat → Nat)
    (j a b : Nat) (h : a ≡ b [MOD W]) :
    row_major_fold dims idxs j a ≡ row_major_fold dims idxs j b [MOD W] := by
  induction dims generalizing j a b with
  | nil => exact h
  | cons d ds ih =>
    rw [row_major_fold, row_major_fold]
    exact ih (j + 1) _ _ ((h.mul_right d).add_right (idxs j))

theorem ail_ok (comps : List Str) (ci : Nat) (idxs : Nat → Nat) :
    ∀ (dims : List Nat) (k multi : Nat), multi < W →
    (∀ j, j < dims.length →
      get_index ((comps.get? (ci + (k + j))).getD default_index)
        = some (some (idxs (k + j)))
      ∧ idxs (k + j) < dims.getD j 0) →
    array_index_loop comps ci dims k multi
      = some (.ok (row_major_fold dims idxs k multi % W)) := by
  intro dims
  induction dims with
  | nil =>
    intro k multi hmul _
    rw [array_index_loop, row_major_fold, Nat.mod_eq_of_lt hmul]
  | cons d ds ih =>
    intro k multi hmul h
    have h0 := h 0 (by simp)
    rw [array_index_loop]
    simp only [Nat.add_zero] at h0
    simp only [h0.1]
    have hlt : ¬ idxs k ≥ d := by
      have := h0.2
      simp at this
      omega
    rw [if_neg hlt]
    have hstep := ih (k + 1) ((multi * d + idxs k) % W)
      (Nat.mod_lt _ (by norm_num [W]))
      (fun j hj => by
        have := h (j + 1) (by simpa using Nat.succ_lt_succ hj)
        rw [show k + (j + 1) = k + 1 + j by omega] at this
        simpa using this)
    rw [hstep, row_major_fold]
    have := row_major_fold_modeq ds idxs (k + 1) ((multi * d + idxs k) % W)
      (multi * d + idxs k) (Nat.mod_modEq _ W)
    rw [this]

theorem ail_err_bounds (comps : List Str) (ci : Nat) (idxs : Nat → Nat) :
    ∀ (dims : List Nat) (k multi m : Nat) (iv : Nat), m < dims.length →
    (∀ j, j < m →
      get_index ((comps.get? (ci + (k + j))).getD default_index)
        = some (some (idxs (k + j)))
      ∧ idxs (k + j) < dims.getD j 0) →
    get_index ((comps.get? (ci + (k + m))).getD default_index)
      = some (some iv) →
    iv ≥ dims.getD m 0 →
    array_index_loop comps ci dims k multi
      = some (.error (bounds_msg iv comps (dims.getD m 0))) := by
  intro dims
  induction dims with
  | nil =>
    intro k multi m iv hm
    simp at hm
  | cons d ds ih =>
    intro k multi m iv hm h hgi hge
    cases m with
    | zero =>
      rw [array_index_loop]
      simp only [Nat.add_zero] at hgi
      simp only [hgi]
      have hd : iv ≥ d := by simpa [List.getD_cons_zero] using hge
      rw [if_pos hd]
      rfl
    | succ mp =>
      rw [array_index_loop]
      have h0 := h 0 (by omega)
      simp only [Nat.add_zero] at h0
      simp only [h0.1]
      have hlt : ¬ idxs k ≥ d := by
        have h2 := h0.2
        simp [List.getD_cons_zero] at h2
        omega
      rw [if_neg hlt]
      have hr := ih (k + 1) ((multi * d + idxs k) % W) mp iv
        (by simpa using Nat.lt_of_succ_lt_succ hm)
        (fun j hj => by
          have hjj := h (j + 1) (by omega)
          rw [show k + (j + 1) = k + 1 + j by omega] at hjj
          simpa [List.getD_cons_succ] using hjj)
        (by
          rw [show k + 1 + mp = k + (mp + 1) by omega]
          exact hgi)
        (by simpa [List.getD_cons_succ] using hge)
      rw [hr]
      rfl

theorem ail_err_parse (comps : List Str) (ci : Nat) (idxs : Nat → Nat) :
    ∀ (dims : List Nat) (k multi m : Nat), m < dims.length →
    (∀ j, j < m →
      get_index ((comps.get? (ci + (k + j))).getD default_index)
        = some (some (idxs (k + j)))
      ∧ idxs (k + j) < dims.getD j 0) →
    get_index ((comps.get? (ci + (k + m))).getD default_index) = some none →
    array_index_loop comps ci dims k multi
      = some (.error (interp_msg
          ((comps.get? (ci + (k + m))).getD default_index))) := by
  intro dims
  induction dims with
  | nil =>
    intro k multi m hm
    simp at hm
  | cons d ds ih =>
    intro k multi m hm h hgi
    cases m with
    | zero =>
      rw [array_index_loop]
      simp only [Nat.add_zero] at hgi ⊢
      simp only [hgi]
    | succ mp =>
      rw [array_index_loop]
      have h0 := h 0 (by omega)
      simp only [Nat.add_zero] at h0
      simp only [h0.1]
      have hlt : ¬ idxs k ≥ d := by
        have h2 := h0.2
        simp [List.getD_cons_zero] at h2
        omega
      rw [if_neg hlt]
      have hr := ih (k + 1) ((multi * d + idxs k) % W) mp
        (by simpa using Nat.lt_of_succ_lt_succ hm)
        (fun j hj => by
          have hjj := h (j + 1) (by omega)
          rw [show k + (j + 1) = k + 1 + j by omega] at hjj
          simpa [List.getD_cons_succ] using hjj)
        (by
          rw [show k + 1 + mp = k + (mp + 1) by omega]
          exact hgi)
      rw [hr]
      rw [show k + 1 + mp = k + (mp + 1) by omega]

/-- C4 (confirmed): array descent.  When descent enters an array type with
components remaining: (a) if one index per declared dimension parses in
bounds (components taken in declared order starting at the current
position, a missing component replaced by the default first-element
index), descent consumes exactly one component per declared dimension and
continues into the element type with the address advanced, modulo 2^64, by
the row-major flattened index of the parsed indices times the array
stride; (b) if the first offending dimension's component parses to an
index at or beyond that dimension's extent, descent stops with the bounds
error naming the index, the full dotted path and the extent; (c) if the
first offending dimension's component does not parse as an index, descent
stops with the unparsable-index error naming the component; and (d) the
default component substituted for a missing trailing index parses to index
0.  Arithmetic is u64/usize arithmetic, hence the modulus. -/
theorem C4_array_descent :
    (∀ (nm : Option Str) (ui sz : Nat) (dims : List Nat) (stride : Nat)
        (arraytype : TypeInfo) (off : Nat) (dbg : DebugData)
        (comps : List Str) (ci addr : Nat) (idxs : Nat → Nat),
      ci < comps.length →
      (∀ j, j < dims.length →
        get_index ((comps.get? (ci + j)).getD default_index)
          = some (some (idxs j))
        ∧ idxs j < dims.getD j 0) →
      find_membertype (.mk nm ui (.array sz dims stride arraytype) off) dbg
          comps ci addr
        = find_membertype arraytype dbg comps (ci + dims.length)
            ((addr + row_major_fold dims idxs 0 0 * stride) % W))
    ∧ (∀ (nm : Option Str) (ui sz : Nat) (dims : List Nat) (stride : Nat)
        (arraytype : TypeInfo) (off : Nat) (dbg : DebugData)
        (comps : List Str) (ci addr : Nat) (idxs : Nat → Nat) (m iv : Nat),
      ci < comps.length →
      m < dims.length →
      (∀ j, j < m →
        get_index ((comps.get? (ci + j)).getD default_index)
          = some (some (idxs j))
        ∧ idxs j < dims.getD j 0) →
      get_index ((comps.get? (ci + m)).getD default_index)
        = some (some iv) →
      iv ≥ dims.getD m 0 →
      find_membertype (.mk nm ui (.array sz dims stride arraytype) off) dbg
          comps ci addr
        = some (.error (bounds_msg iv comps (dims.getD m 0))))
    ∧ (∀ (nm : Option Str) (ui sz : Nat) (dims : List Nat) (stride : Nat)
        (arraytype : TypeInfo) (off : Nat) (dbg : DebugData)
        (comps : List Str) (ci addr : Nat) (idxs : Nat → Nat) (m : Nat),
      ci < comps.length →
      m < dims.length →
      (∀ j, j < m →
        get_index ((comps.get? (ci + j)).getD default_index)
          = some (some (idxs j))
        ∧ idxs j < dims.getD j 0) →
      get_index ((comps.get? (ci + m)).getD default_index) = some none →
      find_membertype (.mk nm ui (.array sz dims stride arraytype) off) dbg
          comps ci addr
        = some (.error (interp_msg
            ((comps.get? (ci + m)).getD default_index))))
    ∧ get_index default_index = some (some 0)
    ∧ (∀ (comps : List Str) (p : Nat), comps.length ≤ p →
        (comps.get? p).getD default_index = default_index) := by
  refine ⟨?_, ?_, ?_, by decide, ?_⟩
  · intro nm ui sz dims stride arraytype off dbg comps ci addr idxs h hidx
    have hl := ail_ok comps ci idxs dims 0 0 (by norm_num [W])
      (fun j hj => by simpa using hidx j hj)
    rw [fm_array_ok nm ui sz dims stride arraytype off dbg comps ci addr
      (row_major_fold dims idxs 0 0 % W) h hl]
    have harith : (addr + ((row_major_fold dims idxs 0 0 % W) * stride) % W)
        % W = (addr + row_major_fold dims idxs 0 0 * stride) % W := by
      have h1 : (row_major_fold dims idxs 0 0 % W) * stride
          ≡ row_major_fold dims idxs 0 0 * stride [MOD W] :=
        (Nat.mod_modEq _ W).mul_right stride
      exact ((Nat.mod_modEq _ W).trans h1).add_left addr
    rw [harith]
  · intro nm ui sz dims stride arraytype off dbg comps ci addr idxs m iv h
      hm hpre hgi hge
    exact fm_array_err nm ui sz dims stride arraytype off dbg comps ci addr
      _ h (ail_err_bounds comps ci idxs dims 0 0 m iv hm
        (fun j hj => by simpa using hpre j hj) (by simpa using hgi) hge)
  · intro nm ui sz dims stride arraytype off dbg comps ci addr idxs m h hm
      hpre hgi
    have := fm_array_err nm ui sz dims stride arraytype off dbg comps ci
      addr _ h (ail_err_parse comps ci idxs dims 0 0 m hm
        (fun j hj => by simpa using hpre j hj) (by simpa using hgi))
    simpa using this
  · intro comps p hp
    have : comps.get? p = none := List.get?_eq_none.2 hp
    rw [this]
    rfl

/-- C4 witness: a 2-by-3 uint32 array with stride 4 based at address 100.
Indices 1 and 2 are consumed, one per declared dimension, and descent
reaches the element type at address 100 plus (1 times 3 plus 2) times 4,
that is 120.  With first index 5 the descent instead stops at the bounds
error for extent 2. -/
theorem C4_array_descent_witness :
    find_membertype (.mk none 0 (.array 24 [2, 3] 4 u32node) 0) dbgEmpty
        [chars "a", chars "[1]", chars "[2]"] 1 100
      = some (.ok (120, u32node))
    ∧ find_membertype (.mk none 0 (.array 24 [2, 3] 4 u32node) 0) dbgEmpty
        [chars "a", chars "[5]", chars "[2]"] 1 100
      = some (.error (bounds_msg 5 [chars "a", chars "[5]", chars "[2]"]
          2)) := by
  constructor
  · have h := C4_array_descent.1 none 0 24 [2, 3] 4 u32node 0 dbgEmpty
      [chars "a", chars "[1]", chars "[2]"] 1 100 (fun j => j + 1)
      (by decide) (by decide)
    exact h.trans ((fm_exhausted u32node dbgEmpty
      [chars "a", chars "[1]", chars "[2]"] (1 + [(2 : Nat), 3].length)
      ((100 + row_major_fold [2, 3] (fun j => j + 1) 0 0 * 4) % W)
      (by decide)).trans rfl)
  · exact (C4_array_descent.2.1 none 0 24 [2, 3] 4 u32node 0 dbgEmpty
      [chars "a", chars "[5]", chars "[2]"] 1 100 (fun j => j + 1) 0 5
      (by decide) (by decide) (by decide) (by decide) (by decide)).trans rfl

theorem splitOnChar_of_not_mem (c : Char) (s : Str) (h : c ∉ s) :
    splitOnChar c s = [s] := by
  induction s with
  | nil => rfl
  | cons x rest ih =>
    simp only [List.mem_cons, not_or] at h
    have hx : ¬ x = c := fun hh => h.1 hh.symm
    rw [splitOnChar, if_neg hx, ih h.2]

theorem splitOnChar_append_cons (c : Char) (a b : Str) (h : c ∉ a) :
    splitOnChar c (a ++ c :: b) = a :: splitOnChar c b := by
  induction a with
  | nil => simp [splitOnChar]
  | cons x xs ih =>
    simp only [List.mem_cons, not_or] at h
    have hx : ¬ x = c := fun hh => h.1 hh.symm
    rw [List.cons_append, splitOnChar, if_neg hx, ih h.2]

theorem splitIncl_append_closed (c : Char) (a b : Str) (h : c ∉ a) :
    splitIncl c (a ++ c :: b) = (a ++ [c]) :: splitIncl c b := by
  induction a with
  | nil => simp [splitIncl]
  | cons x xs ih =>
    simp only [List.mem_cons, not_or] at h
    have hx : ¬ x = c := fun hh => h.1 hh.symm
    rw [List.cons_append, splitIncl, if_neg hx, ih h.2]
    simp

theorem splitIncl_blocks (inners : List Str)
    (h : ∀ s ∈ inners, ']' ∉ s) :
    splitIncl ']' (inners.flatMap (fun s => '[' :: s ++ [']']))
      = inners.map (fun s => '[' :: s ++ [']']) := by
  induction inners with
  | nil => rfl
  | cons s0 rest ih =>
    rw [List.flatMap_cons, List.map_cons]
    have hshape : ('[' :: s0 ++ [']'])
          ++ rest.flatMap (fun s => '[' :: s ++ [']'])
        = ('[' :: s0) ++ ']'
            :: rest.flatMap (fun s => '[' :: s ++ [']']) := by
      simp
    rw [hshape, splitIncl_append_closed ']' ('[' :: s0) _
      (by
        simp only [List.mem_cons, not_or]
        exact ⟨by decide, h s0 (by simp)⟩),
      ih (fun s hs => h s (by simp [hs]))]

theorem get_index_delim (a b : Char)
    (hc : (a = '_' ∧ b = '_') ∨ (a = '[' ∧ b = ']')) (s : Str) :
    get_index (a :: s ++ [b]) = some (parse_usize s) := by
  unfold get_index
  have hh : (a :: s ++ [b]).head? = some a := rfl
  have hl : (a :: s ++ [b]).getLast? = some b := by
    rw [show a :: s ++ [b] = (a :: s) ++ [b] by simp]
    exact List.getLast?_concat _
  have hlen : (a :: s ++ [b]).length = s.length + 2 := by simp
  have hcond : ((a :: s ++ [b]).head? = some '_'
        ∧ (a :: s ++ [b]).getLast? = some '_')
      ∨ ((a :: s ++ [b]).head? = some '['
        ∧ (a :: s ++ [b]).getLast? = some ']') := by
    rw [hh, hl]
    rcases hc with ⟨ha, hb⟩ | ⟨ha, hb⟩
    · exact Or.inl ⟨by rw [ha], by rw [hb]⟩
    · exact Or.inr ⟨by rw [ha], by rw [hb]⟩
  rw [if_pos hcond, hlen]
  rw [if_neg (by omega : ¬ s.length + 2 = 1)]
  have hmid : ((a :: s ++ [b]).drop 1).take (s.length + 2 - 2) = s := by
    rw [show (a :: s ++ [b]).drop 1 = s ++ [b] from rfl,
      show s.length + 2 - 2 = s.length by omega]
    exact List.take_left s [b]
  rw [hmid]

theorem get_index_equiv (s : Str) :
    get_index ('[' :: s ++ [']']) = get_index ('_' :: s ++ ['_']) := by
  rw [get_index_delim '[' ']' (Or.inr ⟨rfl, rfl⟩) s,
    get_index_delim '_' '_' (Or.inl ⟨rfl, rfl⟩) s]

theorem ail_invariant (comps comps2 : List Str)
    (hg : ∀ p, get_index ((comps.get? p).getD default_index)
      = get_index ((comps2.get? p).getD default_index)) :
    ∀ (dims : List Nat) (ci k multi v : Nat),
    array_index_loop comps ci dims k multi = some (.ok v) →
    array_index_loop comps2 ci dims k multi = some (.ok v) := by
  intro dims
  induction dims with
  | nil =>
    intro ci k multi v h
    rw [array_index_loop] at h ⊢
    exact h
  | cons d ds ih =>
    intro ci k multi v h
    rw [array_index_loop] at h ⊢
    rw [← hg (ci + k)] at *
    cases hgi : get_index ((comps.get? (ci + k)).getD default_index) with
    | none =>
      rw [hgi] at h
      simp at h
    | some o =>
      cases o with
      | none =>
        rw [hgi] at h
        simp at h
      | some iv =>
        rw [hgi] at h
        simp only at h ⊢
        by_cases hlt : iv ≥ d
        · rw [if_pos hlt] at h
          simp at h
        · rw [if_neg hlt] at h ⊢
          exact ih _ _ _ _ h

theorem splitOnChar_unders (inners : List Str) :
    ∀ (name : Str), '.' ∉ name → (∀ s ∈ inners, '.' ∉ s) →
    splitOnChar '.' (name
        ++ inners.flatMap (fun s => '.' :: '_' :: s ++ ['_']))
      = name :: inners.map (fun s => '_' :: s ++ ['_']) := by
  induction inners with
  | nil =>
    intro name hn _
    simp only [List.flatMap_nil, List.append_nil, List.map_nil]
    rw [splitOnChar_of_not_mem '.' name hn]
  | cons s0 rest ih =>
    intro name hn hin
    rw [List.flatMap_cons]
    have hshape : name ++ (('.' :: '_' :: s0 ++ ['_'])
          ++ rest.flatMap (fun s => '.' :: '_' :: s ++ ['_']))
        = name ++ '.' :: (('_' :: s0 ++ ['_'])
          ++ rest.flatMap (fun s => '.' :: '_' :: s ++ ['_'])) := by simp
    rw [hshape, splitOnChar_append_cons '.' name _ hn]
    have hnd : '.' ∉ '_' :: s0 ++ ['_'] := by
      intro hmem
      rcases List.mem_cons.1 hmem with h | h
      · exact absurd h (by decide)
      · rcases List.mem_append.1 h with h2 | h2
        · exact hin s0 (by simp) h2
        · simp at h2
    rw [ih ('_' :: s0 ++ ['_']) hnd (fun s hs => hin s (by simp [hs])),
      List.map_cons]

theorem ssc_flat_nobr (l : List Str) (h : ∀ c ∈ l, '[' ∉ c) :
    (l.flatMap (fun component =>
      match findCharIdx '[' component with
      | some idx => component.take idx :: splitIncl ']' (component.drop idx)
      | none => [component])) = l := by
  induction l with
  | nil => rfl
  | cons c cs ih =>
    have h1 := findCharIdx_eq_none '[' c (h c (by simp))
    simp only [List.flatMap_cons, h1]
    rw [ih (fun x hx => h x (by simp [hx]))]
    rfl

theorem ssc_underscore_form (name : Str) (inners : List Str)
    (hdot : '.' ∉ name) (hbrn : '[' ∉ name)
    (hin : ∀ s ∈ inners, '.' ∉ s ∧ '[' ∉ s) :
    split_symbol_components (name
        ++ inners.flatMap (fun s => '.' :: '_' :: s ++ ['_']))
      = name :: inners.map (fun s => '_' :: s ++ ['_']) := by
  unfold split_symbol_components
  rw [splitOnChar_unders inners name hdot (fun s hs => (hin s hs).1)]
  apply ssc_flat_nobr
  intro c hc
  rcases List.mem_cons.1 hc with h | h
  · rw [h]
    exact hbrn
  · simp only [List.mem_map] at h
    obtain ⟨s, hs, rfl⟩ := h
    intro hmem
    rcases List.mem_cons.1 hmem with h2 | h2
    · exact absurd h2 (by decide)
    · rcases List.mem_append.1 h2 with h3 | h3
      · exact (hin s hs).2 h3
      · simp at h3

theorem ssc_bracket_form (name : Str) (inners : List Str)
    (hdot : '.' ∉ name) (hbrn : '[' ∉ name)
    (hin : ∀ s ∈ inners, '.' ∉ s ∧ '[' ∉ s ∧ ']' ∉ s) :
    split_symbol_components (name
        ++ inners.flatMap (fun s => '[' :: s ++ [']']))
      = name :: inners.map (fun s => '[' :: s ++ [']']) := by
  have hnodot : '.' ∉ name ++ inners.flatMap (fun s => '[' :: s ++ [']']) := by
    intro hmem
    rcases List.mem_append.1 hmem with h | h
    · exact hdot h
    · simp only [List.mem_flatMap] at h
      obtain ⟨s, hs, hm⟩ := h
      rcases List.mem_cons.1 hm with h2 | h2
      · exact absurd h2 (by decide)
      · rcases List.mem_append.1 h2 with h3 | h3
        · exact (hin s hs).1 h3
        · simp at h3
  unfold split_symbol_components
  rw [splitOnChar_of_not_mem '.' _ hnodot]
  cases inners with
  | nil =>
    simp only [List.flatMap_nil, List.append_nil, List.map_nil,
      List.flatMap_cons]
    have h1 := findCharIdx_eq_none '[' name hbrn
    simp only [h1]
  | cons s0 rest =>
    simp only [List.flatMap_cons, List.flatMap_nil, List.append_nil]
    have hw : name ++ (('[' :: s0 ++ [']'])
          ++ rest.flatMap (fun s => '[' :: s ++ [']']))
        = name ++ '[' :: (s0 ++ [']']
          ++ rest.flatMap (fun s => '[' :: s ++ [']'])) := by simp
    have hf : findCharIdx '[' (name ++ (('[' :: s0 ++ [']'])
          ++ rest.flatMap (fun s => '[' :: s ++ [']'])))
        = some name.length := by
      rw [hw]
      exact findCharIdx_append '[' name _ hbrn
    simp only [hf]
    rw [List.take_left, List.drop_left]
    have hsb : ('[' :: s0 ++ [']'])
          ++ rest.flatMap (fun s => '[' :: s ++ [']'])
        = (s0 :: rest).flatMap (fun s => '[' :: s ++ [']']) := by
      rw [List.flatMap_cons]
    rw [hsb, splitIncl_blocks (s0 :: rest) (fun s hs => (hin s hs).2.2)]

/-- C9 (corrected): interchangeability of the two index spellings holds
exactly where a component is interpreted as an array index.  Splitting
produces one component per index in both notations; get_index gives the
same result for the bracket and underscore spelling of any index; the
array-descent index loop depends on the components only through get_index,
so a successful descent is unchanged when components are replaced by
get_index-equivalent spellings; and on the repository's struct-of-array
fixture the two spellings of the same path resolve to the identical address
0x00cafe00 and element type (the resolved display name still records the
original spelling).  The claim's unconditional form is false: a component
in underscore form can also match a literal struct member of that name,
where the bracket spelling does not — see the counterexample. -/
theorem C9_index_spellings :
    (∀ (name : Str) (inners : List Str), '.' ∉ name → '[' ∉ name →
      (∀ s ∈ inners, '.' ∉ s ∧ '[' ∉ s ∧ ']' ∉ s) →
      split_symbol_components (name
          ++ inners.flatMap (fun s => '[' :: s ++ [']']))
        = name :: inners.map (fun s => '[' :: s ++ [']'])
      ∧ split_symbol_components (name
          ++ inners.flatMap (fun s => '.' :: '_' :: s ++ ['_']))
        = name :: inners.map (fun s => '_' :: s ++ ['_']))
    ∧ (∀ s : Str,
      get_index ('[' :: s ++ [']']) = get_index ('_' :: s ++ ['_']))
    ∧ (∀ comps comps2 : List Str,
      (∀ p, get_index ((comps.get? p).getD default_index)
        = get_index ((comps2.get? p).getD default_index)) →
      ∀ (dims : List Nat) (ci k multi v : Nat),
      array_index_loop comps ci dims k multi = some (.ok v) →
      array_index_loop comps2 ci dims k multi = some (.ok v))
    ∧ find_symbol (chars "my_struct.array_item[0]") dbgStruct
        = some (.ok ⟨chars "my_struct.array_item[0]", 0x00cafe00, u32node,
            0, none, [], true⟩)
    ∧ find_symbol (chars "my_struct.array_item._0_") dbgStruct
        = some (.ok ⟨chars "my_struct.array_item._0_", 0x00cafe00, u32node,
            0, none, [], true⟩) := by
  refine ⟨?_, get_index_equiv, ail_invariant, ?_, ?_⟩
  · intro name inners h1 h2 h3
    exact ⟨ssc_bracket_form name inners h1 h2 h3,
      ssc_underscore_form name inners h1 h2
        (fun s hs => ⟨(h3 s hs).1, (h3 s hs).2.1⟩)⟩
  · have hm : find_membertype (TypeInfo.mk none 0 (.struct 4
          [(chars "array_item", arrayU32x2, 0)]) 0) dbgStruct
          [chars "my_struct", chars "array_item", chars "[0]"] 1 0x00cafe00
        = some (.ok (0x00cafe00, u32node)) :=
      (fm_struct_found none 0 4 [(chars "array_item", arrayU32x2, 0)] 0
          dbgStruct [chars "my_struct", chars "array_item", chars "[0]"] 1
          0x00cafe00 arrayU32x2 0 (by decide) rfl).trans
        ((fm_array_ok none (W - 1) 8 [2] 4 u32node 0 dbgStruct
            [chars "my_struct", chars "array_item", chars "[0]"] (1 + 1)
            ((0x00cafe00 + 0) % W) 0 (by decide) rfl).trans
          ((fm_exhausted u32node dbgStruct
            [chars "my_struct", chars "array_item", chars "[0]"]
            (1 + 1 + [(2 : Nat)].length)
            ((((0x00cafe00 + 0) % W) + (0 * 4) % W) % W) (by decide)).trans
            rfl))
    have hf := fsc_eval_ok (chars "my_struct")
      [chars "array_item", chars "[0]"] none dbgStruct
      [⟨0x00cafe00, 2, 0, none, []⟩] ⟨0x00cafe00, 2, 0, none, []⟩
      (TypeInfo.mk none 0 (.struct 4
        [(chars "array_item", arrayU32x2, 0)]) 0) 0x00cafe00 u32node rfl
      rfl rfl hm
    exact fs_eval_ok (chars "my_struct.array_item[0]") dbgStruct
      (chars "my_struct.array_item[0]") none (chars "my_struct")
      [chars "array_item", chars "[0]"] _ rfl rfl hf
  · have hm : find_membertype (TypeInfo.mk none 0 (.struct 4
          [(chars "array_item", arrayU32x2, 0)]) 0) dbgStruct
          [chars "my_struct", chars "array_item", chars "_0_"] 1 0x00cafe00
        = some (.ok (0x00cafe00, u32node)) :=
      (fm_struct_found none 0 4 [(chars "array_item", arrayU32x2, 0)] 0
          dbgStruct [chars "my_struct", chars "array_item", chars "_0_"] 1
          0x00cafe00 arrayU32x2 0 (by decide) rfl).trans
        ((fm_array_ok none (W - 1) 8 [2] 4 u32node 0 dbgStruct
            [chars "my_struct", chars "array_item", chars "_0_"] (1 + 1)
            ((0x00cafe00 + 0) % W) 0 (by decide) rfl).trans
          ((fm_exhausted u32node dbgStruct
            [chars "my_struct", chars "array_item", chars "_0_"]
            (1 + 1 + [(2 : Nat)].length)
            ((((0x00cafe00 + 0) % W) + (0 * 4) % W) % W) (by decide)).trans
            rfl))
    have hf := fsc_eval_ok (chars "my_struct")
      [chars "array_item", chars "_0_"] none dbgStruct
      [⟨0x00cafe00, 2, 0, none, []⟩] ⟨0x00cafe00, 2, 0, none, []⟩
      (TypeInfo.mk none 0 (.struct 4
        [(chars "array_item", arrayU32x2, 0)]) 0) 0x00cafe00 u32node rfl
      rfl rfl hm
    exact fs_eval_ok (chars "my_struct.array_item._0_") dbgStruct
      (chars "my_struct.array_item._0_") none (chars "my_struct")
      [chars "array_item", chars "_0_"] _ rfl rfl hf

/-- C9 witness: the split conjunct at base ab with bracket indices 5 and 1,
and the get_index conjunct at index 7. -/
theorem C9_index_spellings_witness :
    split_symbol_components (chars "ab"
        ++ [chars "5", chars "1"].flatMap (fun s => '[' :: s ++ [']']))
      = chars "ab" :: [chars "5", chars "1"].map (fun s => '[' :: s ++ [']'])
    ∧ get_index ('[' :: chars "7" ++ [']'])
      = get_index ('_' :: chars "7" ++ ['_']) :=
  ⟨(C9_index_spellings.1 (chars "ab") [chars "5", chars "1"] (by decide)
      (by decide) (by decide)).1,
   C9_index_spellings.2.1 (chars "7")⟩

/-- C9 counterexample: a struct with a member literally named with the
legacy spelling underscore-zero-underscore.  The underscore spelling of the
path resolves to that member at address 504, while the bracket spelling of
the same path fails with a no-member error, so the two spellings of the
same path do not resolve to identical addresses and types, contradicting
the claim as stated. -/
theorem C9_counterexample :
    find_symbol (chars "s._0_") dbgUS
      = some (.ok ⟨chars "s._0_", 504, u32node, 0, none, [], true⟩)
    ∧ find_symbol (chars "s[0]") dbgUS
      = some (.error (no_member_msg (chars "[0]")
          [chars "s", chars "[0]"] 1))
    ∧ find_symbol (chars "s._0_") dbgUS ≠ find_symbol (chars "s[0]") dbgUS := by
  have h1 : find_symbol (chars "s._0_") dbgUS
      = some (.ok ⟨chars "s._0_", 504, u32node, 0, none, [], true⟩) := by
    have hm : find_membertype (TypeInfo.mk none 0 (.struct 8
          [(chars "_0_", u32node, 4)]) 0) dbgUS [chars "s", chars "_0_"] 1
          500
        = some (.ok (504, u32node)) :=
      (fm_struct_found none 0 8 [(chars "_0_", u32node, 4)] 0 dbgUS
          [chars "s", chars "_0_"] 1 500 u32node 4 (by decide) rfl).trans
        ((fm_exhausted (u32node.get_reference dbgUS.types) dbgUS
          [chars "s", chars "_0_"] (1 + 1) ((500 + 4) % W)
          (by decide)).trans rfl)
    have hf := fsc_eval_ok (chars "s") [chars "_0_"] none dbgUS
      [⟨500, 3, 0, none, []⟩] ⟨500, 3, 0, none, []⟩
      (TypeInfo.mk none 0 (.struct 8 [(chars "_0_", u32node, 4)]) 0) 504
      u32node rfl rfl rfl hm
    exact fs_eval_ok (chars "s._0_") dbgUS (chars "s._0_") none (chars "s")
      [chars "_0_"] _ rfl rfl hf
  have h2 : find_symbol (chars "s[0]") dbgUS
      = some (.error (no_member_msg (chars "[0]")
          [chars "s", chars "[0]"] 1)) := by
    have hm : find_membertype (TypeInfo.mk none 0 (.struct 8
          [(chars "_0_", u32node, 4)]) 0) dbgUS [chars "s", chars "[0]"] 1
          500
        = some (.error (no_member_msg (chars "[0]")
            [chars "s", chars "[0]"] 1)) :=
      (fm_struct_notfound none 0 8 [(chars "_0_", u32node, 4)] 0 dbgUS
        [chars "s", chars "[0]"] 1 500 (by decide) rfl).trans rfl
    have hf := fsc_eval_err (chars "s") [chars "[0]"] none dbgUS
      [⟨500, 3, 0, none, []⟩] ⟨500, 3, 0, none, []⟩
      (TypeInfo.mk none 0 (.struct 8 [(chars "_0_", u32node, 4)]) 0) _ rfl
      rfl rfl hm
    exact fs_eval_err_nodemangle (chars "s[0]") dbgUS (chars "s[0]") none
      (chars "s") [chars "[0]"] _ rfl rfl hf rfl
  refine ⟨h1, h2, ?_⟩
  rw [h1, h2]
  simp

theorem fsbo_loop_eq (base_symbol : SymbolInfo) (offset : Nat)
    (l : List (Str × TypeInfo × Nat)) :
    fsbo_loop base_symbol offset l
      = (l.find? (fun e => e.2.2 == offset)).map (fun e =>
          ⟨base_symbol.name ++ e.1, (offset + base_symbol.address) % W,
            e.2.1, base_symbol.unit_idx, base_symbol.function_name,
            base_symbol.namespaces, base_symbol.is_unique⟩) := by
  induction l with
  | nil => rfl
  | cons e rest ih =>
    obtain ⟨nm, ti, io⟩ := e
    by_cases hio : io = offset
    · subst hio
      rw [fsbo_loop, if_pos rfl]
      simp [List.find?]
    · rw [fsbo_loop, if_neg hio, ih]
      have hb : ((io == offset) : Bool) = false := by simp [hio]
      simp [List.find?, hb]

/-- C8 (corrected): reverse offset lookup.  find_symbol_by_offset rejects
an offset that is negative or strictly greater than the base type's size
cast to a signed 32-bit integer — for base types smaller than 2^31 bytes
this is exactly the claimed validation, with an offset equal to the size
passing, but a size of 2^31 bytes or more wraps in the cast, which the
claim does not account for (see the counterexample).  When validation
passes, the result is determined by the first enumerated component whose
cumulative byte offset equals the offset: it is renamed as the base name
concatenated with the component suffix and readdressed at base address
plus offset (modulo 2^64), and if no component offset matches, the
no-component-at-offset error is returned. -/
theorem C8_offset_lookup (base_symbol : SymbolInfo) (offset : Int)
    (dbg : DebugData) :
    (¬ (offset < 0 ∨ offset > u64_as_i32 base_symbol.typeinfo.get_size) →
      find_symbol_by_offset base_symbol offset dbg
        = match (type_info_iter dbg.types base_symbol.typeinfo).find?
            (fun e => e.2.2 == offset.toNat) with
          | some e =>
            .ok ⟨base_symbol.name ++ e.1,
              (offset.toNat + base_symbol.address) % W, e.2.1,
              base_symbol.unit_idx, base_symbol.function_name,
              base_symbol.namespaces, base_symbol.is_unique⟩
          | none =>
            .error ("Could not find a symbol component at offset "
              ++ toString offset.toNat ++ " from \""
              ++ String.mk base_symbol.name ++ "\""))
    ∧ ((offset < 0 ∨ offset > u64_as_i32 base_symbol.typeinfo.get_size) →
      find_symbol_by_offset base_symbol offset dbg
        = .error ("Offset " ++ toString offset
            ++ " is out of bounds for symbol \""
            ++ String.mk base_symbol.name ++ "\"")) := by
  constructor
  · intro h
    unfold find_symbol_by_offset
    rw [if_neg h]
    simp only [fsbo_loop_eq]
    cases hx : (type_info_iter dbg.types base_symbol.typeinfo).find?
        (fun e => e.2.2 == offset.toNat) with
    | none => simp [hx]
    | some e => simp [hx]
  · intro h
    unfold find_symbol_by_offset
    rw [if_pos h]

/-- C8 witness: on the two-byte-member struct based at address 1000,
offset 2 passes validation (the size 3 casts to 3) and the first component
at cumulative offset 2 is member b, returned as st.b at address 1002. -/
theorem C8_offset_lookup_witness :
    find_symbol_by_offset stbase 2 dbgEmpty
      = .ok ⟨chars "st.b", 1002, u8node, 0, none, [], true⟩ := by
  have htii : type_info_iter dbgEmpty.types stbase.typeinfo
      = [('.' :: chars "a", u8node, 0), ('.' :: chars "b", u8node, 2)] := by
    rw [show stbase.typeinfo = stty from rfl,
      show stty = .mk none 0 (.struct 3 [(chars "a", u8node, 0),
        (chars "b", u8node, 2)]) 0 from rfl,
      tii_struct, tii_members_cons, tii_members_cons, tii_members_nil]
    rw [show u8node = .mk none 0 .uint8 0 from rfl, tii_uint8]
    simp
  have h := (C8_offset_lookup stbase 2 dbgEmpty).1 (by decide)
  rw [htii] at h
  exact h.trans rfl

/-- C8 counterexample: the base type is an array of 2^31 bytes, so its size
cast to i32 is the negative value -2^31 and validation rejects even offset
0, although 0 is nonnegative and no greater than the type's size — the
claim asserts such an offset passes validation. -/
theorem C8_counterexample :
    find_symbol_by_offset baseBig 0 dbgEmpty
      = .error ("Offset 0 is out of bounds for symbol \"big\"")
    ∧ ¬ ((0 : Int) < 0)
    ∧ (0 : Int) ≤ (bigArr.get_size : Int) := by
  refine ⟨?_, by decide, by decide⟩
  unfold find_symbol_by_offset
  rw [if_pos (show (0 : Int) < 0
    ∨ (0 : Int) > u64_as_i32 baseBig.typeinfo.get_size by decide)]
  congr 1

end A2l
